import Mathlib

/-!
# Level generator (`src/level-generator.js`): embedding and verified properties

The level generator turns a loosely structured candidate record (decoded from a
text response) into a level configuration, and synthesises levels procedurally
from a difficulty tier.  This file embeds the functions of `LevelGenerator`
as executable Lean definitions and proves properties of them.

Conventions of the embedding:

* a JavaScript number is a `JSNum`: `NaN`, the two infinities, or an exact
  rational (no rounding, no signed zero);
* a JavaScript value is a `JSVal`: the values `JSON.parse` can produce, plus
  `undefined` (the result of reading a missing property) and `builtin` (an
  object reached through `Object.prototype`, such as `Object` itself);
* `Math.random()` reads the next entry of a stream `rnd : Nat → ℚ`; the
  position in the stream is threaded through every computation;
* a computation either returns, throws (a `TypeError` or `SyntaxError`, which
  `try`/`catch` intercepts) or does not terminate.
-/

namespace LevelGen

/-! ## Numbers -/

/-- A JavaScript number. -/
inductive JSNum where
  | nan
  | negInf
  | fin (q : ℚ)
  | posInf
  deriving DecidableEq

namespace JSNum

/-- `Math.max(a, b)` on numbers: `NaN` is contagious. -/
def max : JSNum → JSNum → JSNum
  | nan, _ => nan
  | _, nan => nan
  | posInf, _ => posInf
  | _, posInf => posInf
  | negInf, b => b
  | a, negInf => a
  | fin p, fin q => fin (Max.max p q)

/-- `Math.min(a, b)` on numbers: `NaN` is contagious. -/
def min : JSNum → JSNum → JSNum
  | nan, _ => nan
  | _, nan => nan
  | negInf, _ => negInf
  | _, negInf => negInf
  | posInf, b => b
  | a, posInf => a
  | fin p, fin q => fin (Min.min p q)

/-- The product `a * b`. -/
def mul : JSNum → JSNum → JSNum
  | nan, _ => nan
  | _, nan => nan
  | fin p, fin q => fin (p * q)
  | fin p, posInf => if p = 0 then nan else if 0 < p then posInf else negInf
  | fin p, negInf => if p = 0 then nan else if 0 < p then negInf else posInf
  | posInf, fin q => if q = 0 then nan else if 0 < q then posInf else negInf
  | negInf, fin q => if q = 0 then nan else if 0 < q then negInf else posInf
  | posInf, posInf => posInf
  | negInf, negInf => posInf
  | posInf, negInf => negInf
  | negInf, posInf => negInf

/-- The sum `a + b`. -/
def add : JSNum → JSNum → JSNum
  | nan, _ => nan
  | _, nan => nan
  | fin p, fin q => fin (p + q)
  | posInf, negInf => nan
  | negInf, posInf => nan
  | posInf, _ => posInf
  | _, posInf => posInf
  | negInf, _ => negInf
  | _, negInf => negInf

/-- `Math.floor(a)`. -/
def floor : JSNum → JSNum
  | fin q => fin (Int.floor q)
  | a => a

/-- The number is falsy: zero or `NaN`. -/
def isFalsy : JSNum → Bool
  | nan => true
  | fin q => decide (q = 0)
  | _ => false

/-- The number is a rational inside the closed interval `[lo, hi]`. -/
def within (n : JSNum) (lo hi : ℚ) : Prop :=
  match n with
  | fin q => lo ≤ q ∧ q ≤ hi
  | _ => False

instance (n : JSNum) (lo hi : ℚ) : Decidable (within n lo hi) := by
  unfold within
  cases n <;> infer_instance

end JSNum

/-! ## Values -/

/-- A JavaScript value, as far as this program can meet one. -/
inductive JSVal where
  | undefined
  | null
  | bool (b : Bool)
  | num (n : JSNum)
  | str (s : String)
  | arr (xs : List JSVal)
  | obj (props : List (String × JSVal))
  | builtin

namespace JSVal

/-- `ToBoolean`: `undefined`, `null`, `false`, `0`, `NaN` and the empty string
are falsy, every other value (all objects and arrays included) is truthy. -/
def truthy : JSVal → Bool
  | undefined => false
  | null => false
  | bool b => b
  | num n => !n.isFalsy
  | str s => decide (s ≠ "")
  | arr _ => true
  | obj _ => true
  | builtin => true

/-- The operator `a || b`. -/
def or (a b : JSVal) : JSVal :=
  if a.truthy then a else b

/-- The names every object inherits from `Object.prototype`. -/
def objectPrototypeKeys : List String :=
  ["constructor", "hasOwnProperty", "isPrototypeOf", "propertyIsEnumerable",
   "toLocaleString", "toString", "valueOf", "__proto__", "__defineGetter__",
   "__defineSetter__", "__lookupGetter__", "__lookupSetter__"]

/-- What a property read finds on the prototype chain once no own property
matched: a built-in object for the names of `Object.prototype`, `undefined`
otherwise. -/
def inherited (key : String) : JSVal :=
  if key ∈ objectPrototypeKeys then builtin else undefined

/-- The property read `v.key` (or `v[key]`): `none` stands for the `TypeError`
raised on `null` and `undefined`.  An object answers with its own property
first; the own properties of arrays, strings and built-ins (`length`, indices,
`name`) are not represented, the program never reads them through this
function. -/
def getProp (v : JSVal) (key : String) : Option JSVal :=
  match v with
  | undefined => none
  | null => none
  | obj props =>
    match props.lookup key with
    | some w => some w
    | none => some (inherited key)
  | _ => some (inherited key)

/-- The object has an own property of that name. -/
def hasOwn (key : String) (props : List (String × JSVal)) : Bool :=
  props.any (fun p => p.1 == key)

mutual
/-- Converting the value to a primitive raises a `TypeError`: it is, or as an
array contains, an object whose own `toString` property hides the inherited
method (an own property of a decoded record is never callable). -/
def throwsOnCoercion : JSVal → Bool
  | arr xs => anyThrowsOnCoercion xs
  | obj props => hasOwn "toString" props
  | _ => false
/-- Some element of the list raises on conversion to a primitive. -/
def anyThrowsOnCoercion : List JSVal → Bool
  | [] => false
  | x :: xs => throwsOnCoercion x || anyThrowsOnCoercion xs
end

end JSVal

/-! ## Strings as numbers -/

/-- White space and line terminators, the characters `StringToNumber` trims. -/
def isStrWhiteSpace (c : Char) : Bool :=
  c.toNat ∈ [0x9, 0xA, 0xB, 0xC, 0xD, 0x20, 0xA0, 0x1680, 0x2028, 0x2029,
    0x202F, 0x205F, 0x3000, 0xFEFF] || (0x2000 ≤ c.toNat && c.toNat ≤ 0x200A)

/-- The value of one digit in the given base, if it is one. -/
def digitValue (base : Nat) (c : Char) : Option Nat :=
  let n := c.toNat
  let d :=
    if 48 ≤ n ∧ n ≤ 57 then some (n - 48)
    else if 97 ≤ n ∧ n ≤ 102 then some (n - 87)
    else if 65 ≤ n ∧ n ≤ 70 then some (n - 55)
    else none
  d.bind fun k => if k < base then some k else none

/-- The value of a sequence of digits read left to right from `acc`. -/
def digitsFrom (base : Nat) : Nat → List Char → Option Nat
  | acc, [] => some acc
  | acc, c :: cs => (digitValue base c).bind fun d => digitsFrom base (acc * base + d) cs

/-- The value of a non-empty sequence of digits. -/
def digits (base : Nat) (cs : List Char) : Option Nat :=
  if cs.isEmpty then none else digitsFrom base 0 cs

/-- A `SignedInteger`: digits with an optional sign. -/
def signedInteger (cs : List Char) : Option Int :=
  match cs with
  | '+' :: rest => (digits 10 rest).map Int.ofNat
  | '-' :: rest => (digits 10 rest).map fun n => - Int.ofNat n
  | _ => (digits 10 cs).map Int.ofNat

/-- The mantissa of a decimal literal: `digits`, `digits.`, `digits.digits`
or `.digits`. -/
def mantissa (cs : List Char) : Option ℚ :=
  let ip := cs.takeWhile (fun c => c != '.')
  match cs.dropWhile (fun c => c != '.') with
  | [] => (digits 10 ip).map fun n => (n : ℚ)
  | _ :: fp =>
    if fp.isEmpty then (digits 10 ip).map fun n => (n : ℚ)
    else
      (digits 10 fp).bind fun f =>
        let frac : ℚ := (f : ℚ) / (10 : ℚ) ^ fp.length
        if ip.isEmpty then some frac
        else (digits 10 ip).map fun n => (n : ℚ) + frac

/-- A `StrUnsignedDecimalLiteral`: `Infinity`, or a mantissa with an optional
exponent part. -/
def unsignedDecimal (cs : List Char) : Option JSNum :=
  if cs = "Infinity".toList then some JSNum.posInf
  else
    let isExp : Char → Bool := fun c => c == 'e' || c == 'E'
    let m := cs.takeWhile (fun c => !isExp c)
    match cs.dropWhile (fun c => !isExp c) with
    | [] => (mantissa m).map JSNum.fin
    | _ :: e =>
      (mantissa m).bind fun q =>
        (signedInteger e).map fun k => JSNum.fin (q * (10 : ℚ) ^ k)

/-- The negation `-a`. -/
def JSNum.neg : JSNum → JSNum
  | .nan => .nan
  | .negInf => .posInf
  | .posInf => .negInf
  | .fin q => .fin (-q)

/-- A `StrNumericLiteral`: a signed decimal literal or an unsigned binary,
octal or hexadecimal integer literal. -/
def strNumericLiteral (cs : List Char) : Option JSNum :=
  match cs with
  | '0' :: 'x' :: rest => (digits 16 rest).map fun n => JSNum.fin n
  | '0' :: 'X' :: rest => (digits 16 rest).map fun n => JSNum.fin n
  | '0' :: 'o' :: rest => (digits 8 rest).map fun n => JSNum.fin n
  | '0' :: 'O' :: rest => (digits 8 rest).map fun n => JSNum.fin n
  | '0' :: 'b' :: rest => (digits 2 rest).map fun n => JSNum.fin n
  | '0' :: 'B' :: rest => (digits 2 rest).map fun n => JSNum.fin n
  | '+' :: rest => unsignedDecimal rest
  | '-' :: rest => (unsignedDecimal rest).map JSNum.neg
  | _ => unsignedDecimal cs

/-- `StringToNumber`: the text without surrounding white space is empty (zero),
a numeric literal (its exact value) or anything else (`NaN`). -/
def stringToNumber (s : String) : JSNum :=
  let body := ((s.toList.dropWhile isStrWhiteSpace).reverse.dropWhile isStrWhiteSpace).reverse
  if body.isEmpty then JSNum.fin 0
  else (strNumericLiteral body).getD JSNum.nan

namespace JSVal

mutual
/-- The number a value that converts without raising stands for.  An array
converts through its elements joined by commas: the empty array is the empty
string, a one-element array is its element as text (nothing for `null` and
`undefined`), and text with a comma is no number. -/
def numericValue : JSVal → JSNum
  | undefined => JSNum.nan
  | null => JSNum.fin 0
  | bool b => JSNum.fin (if b then 1 else 0)
  | num n => n
  | str s => stringToNumber s
  | arr xs => joinedValue xs
  | obj _ => JSNum.nan
  | builtin => JSNum.nan
/-- The number the elements of an array stand for once joined by commas. -/
def joinedValue : List JSVal → JSNum
  | [] => JSNum.fin 0
  | [x] => elementValue x
  | _ :: _ :: _ => JSNum.nan
/-- The number the text of a single array element stands for. -/
def elementValue : JSVal → JSNum
  | undefined => JSNum.fin 0
  | null => JSNum.fin 0
  | bool _ => JSNum.nan
  | num n => n
  | str s => stringToNumber s
  | arr xs => joinedValue xs
  | obj _ => JSNum.nan
  | builtin => JSNum.nan
end

/-- `ToNumber`: `none` stands for the `TypeError` of a value that has no
primitive. -/
def toNumber (v : JSVal) : Option JSNum :=
  if v.throwsOnCoercion then none else some v.numericValue

end JSVal

/-! ## Computations -/

/-- How a computation ends: with a value, with an exception that `try`/`catch`
intercepts, or never. -/
inductive Res (α : Type) where
  | ok (a : α)
  | thrown
  | diverged

/-- A computation: from the position in the stream of random draws to its
result and the position it leaves behind (also when it throws). -/
def JS (α : Type) : Type := Nat → Res α × Nat

namespace JS

/-- Return a value. -/
def ret {α : Type} (a : α) : JS α := fun k => (Res.ok a, k)

/-- Raise an exception. -/
def throw {α : Type} : JS α := fun k => (Res.thrown, k)

/-- Never return. -/
def diverge {α : Type} : JS α := fun k => (Res.diverged, k)

/-- Run `m`, then `f` on its value; an exception or divergence of `m` ends the
whole computation. -/
def andThen {α β : Type} (m : JS α) (f : α → JS β) : JS β := fun k =>
  match m k with
  | (Res.ok a, k1) => f a k1
  | (Res.thrown, k1) => (Res.thrown, k1)
  | (Res.diverged, k1) => (Res.diverged, k1)

instance : Monad JS where
  pure := ret
  bind := andThen

/-- The statement `try { m } catch { handler }`. -/
def tryCatch {α : Type} (m : JS α) (handler : JS α) : JS α := fun k =>
  match m k with
  | (Res.thrown, k1) => handler k1
  | r => r

/-- A value whose computation may raise. -/
def ofOption {α : Type} : Option α → JS α
  | some a => ret a
  | none => throw

/-- `Math.random()`: the next draw of the stream. -/
def random (rnd : Nat → ℚ) : JS ℚ := fun k => (Res.ok (rnd k), k + 1)

end JS

/-! ## The data model -/

/-- A house of a level. -/
structure House where
  x : JSNum
  color : JSVal

/-- A platform of a level. -/
structure Platform where
  x : JSNum
  heightAboveGround : JSNum
  width : JSNum
  moving : JSVal
  speed : JSNum

/-- A level configuration, the object `validateAndNormalize` and
`generateRandom` build.  A field is a `JSNum` where both always store a
number, a `JSVal` where one of them stores a value as it finds it. -/
structure LevelConfig where
  name : JSVal
  theme : JSVal
  worldWidth : JSNum
  houses : List House
  platforms : List Platform
  iceCount : JSNum
  iceSpeed : JSNum
  deliveriesNeeded : JSVal
  thiefEnabled : JSVal
  thiefSpeed : JSNum
  powerUpChance : JSNum
  description : JSVal

/-- One entry of `LEVEL_TEMPLATES`. -/
def template (houseCount platformDensity iceDensity deliveriesNeeded : ℚ)
    (thiefEnabled : Bool) : JSVal :=
  JSVal.obj [("houseCount", JSVal.num (JSNum.fin houseCount)),
    ("platformDensity", JSVal.num (JSNum.fin platformDensity)),
    ("iceDensity", JSVal.num (JSNum.fin iceDensity)),
    ("deliveriesNeeded", JSVal.num (JSNum.fin deliveriesNeeded)),
    ("thiefEnabled", JSVal.bool thiefEnabled)]

/-- The table `LEVEL_TEMPLATES`. -/
def LEVEL_TEMPLATES : JSVal :=
  JSVal.obj [("easy", template 6 (3 / 10) (1 / 2) 4 false),
    ("medium", template 8 (1 / 2) (7 / 10) 6 true),
    ("hard", template 10 (7 / 10) 1 8 true)]

/-- The colour table of the houses. -/
def palette : List String :=
  ["#c0392b", "#27ae60", "#2980b9", "#8e44ad", "#d35400"]

/-- The colour `palette[i % 5]`. -/
def paletteColor (i : Nat) : JSVal :=
  match palette[i % 5]? with
  | some c => JSVal.str c
  | none => JSVal.undefined

/-! ## The level generator -/

/-- The quotient `a / b`. -/
def JSNum.div : JSNum → JSNum → JSNum
  | .nan, _ => .nan
  | _, .nan => .nan
  | .fin p, .fin q =>
    if q = 0 then (if p = 0 then .nan else if 0 < p then .posInf else .negInf)
    else .fin (p / q)
  | .fin _, _ => .fin 0
  | .posInf, .fin q => if 0 ≤ q then .posInf else .negInf
  | .negInf, .fin q => if 0 ≤ q then .negInf else .posInf
  | _, _ => .nan

/-- How often the body of `for (let i = 0; i < count; i++)` runs: once for
every natural number below `count`, not at all when the comparison fails at
`i = 0` (`NaN` included), and `none` when the loop never ends. -/
def loopCount : JSNum → Option Nat
  | .posInf => none
  | .fin q => some ⌈q⌉₊
  | _ => some 0

/-- The iterations `i, i + 1, …` of a loop body, `n` of them, collecting what
each one pushes. -/
def forLoop {β : Type} (body : Nat → JS β) : Nat → Nat → JS (List β)
  | _, 0 => pure []
  | i, n + 1 => do
    let b ← body i
    let bs ← forLoop body (i + 1) n
    pure (b :: bs)

/-- The call `xs.map((v, i) => f(v, i))` on the elements from index `i` on. -/
def mapFrom {β : Type} (f : JSVal → Nat → JS β) : Nat → List JSVal → JS (List β)
  | _, [] => pure []
  | i, v :: vs => do
    let b ← f v i
    let bs ← mapFrom f (i + 1) vs
    pure (b :: bs)

/-- The expression `Math.min(Math.max(n, lo), hi)` on a number `n`. -/
def JSNum.clamp (n : JSNum) (lo hi : ℚ) : JSNum :=
  JSNum.min (JSNum.max n (JSNum.fin lo)) (JSNum.fin hi)

/-- The expression `Math.min(Math.max(v, lo), hi)`: the value is converted to
a number first. -/
def clamp (v : JSVal) (lo hi : ℚ) : JS JSNum := do
  let n ← JS.ofOption v.toNumber
  pure (n.clamp lo hi)

/-- The property read `v.key` as a computation. -/
def get (v : JSVal) (key : String) : JS JSVal :=
  JS.ofOption (v.getProp key)

/-- The body of the loop of `generateDefaultHouses`. -/
def defaultHouse (rnd : Nat → ℚ) (spacing : JSNum) (i : Nat) : JS House := do
  let r ← JS.random rnd
  pure { x := ((JSNum.fin 400).add ((JSNum.fin i).mul spacing)).add (JSNum.fin ((r - 1 / 2) * 100))
         color := paletteColor i }

/-- The method `generateDefaultHouses(count)`; `count` is the argument as a
number, it is only divided by and compared with. -/
def generateDefaultHouses (rnd : Nat → ℚ) (count : JSNum) : JS (List House) :=
  let spacing := (JSNum.fin 2800).div count
  match loopCount count with
  | none => JS.diverge
  | some n => forLoop (defaultHouse rnd spacing) 0 n

/-- The body of the loop of `generateDefaultPlatforms`. -/
def defaultPlatform (rnd : Nat → ℚ) (i : Nat) : JS Platform := do
  let r1 ← JS.random rnd
  let r2 ← JS.random rnd
  let r3 ← JS.random rnd
  let r4 ← JS.random rnd
  let r5 ← JS.random rnd
  pure { x := JSNum.fin (300 + i * 350 + r1 * 100)
         heightAboveGround := JSNum.fin (60 + r2 * 60)
         width := JSNum.fin (70 + r3 * 50)
         moving := JSVal.bool (decide (r4 > 1 / 2))
         speed := JSNum.fin (4 / 5 + r5 * (4 / 5)) }

/-- The method `generateDefaultPlatforms(count)`. -/
def generateDefaultPlatforms (rnd : Nat → ℚ) (count : JSNum) : JS (List Platform) :=
  match loopCount count with
  | none => JS.diverge
  | some n => forLoop (defaultPlatform rnd) 0 n

/-- The callback of `normalizeHouses`, on entry `h` at index `i`. -/
def normalizeHouse (h : JSVal) (i : Nat) : JS House := do
  let x ← clamp ((← get h "x").or (JSVal.num (JSNum.fin (400 + i * 300)))) 300 4500
  let color := (← get h "color").or (paletteColor i)
  pure { x := x, color := color }

/-- The method `normalizeHouses(houses)`. -/
def normalizeHouses (rnd : Nat → ℚ) (houses : JSVal) : JS (List House) :=
  match houses with
  | JSVal.arr hs =>
    if hs.length < 3 then generateDefaultHouses rnd (JSNum.fin 8)
    else mapFrom normalizeHouse 0 (hs.take 12)
  | _ => generateDefaultHouses rnd (JSNum.fin 8)

/-- The callback of `normalizePlatforms`, on entry `p`. -/
def normalizePlatform (rnd : Nat → ℚ) (p : JSVal) (_i : Nat) : JS Platform := do
  let x ← clamp ((← get p "x").or (JSVal.num (JSNum.fin 500))) 200 4500
  let height ← clamp
    (((← get p "heightAboveGround").or (← get p "height")).or (JSVal.num (JSNum.fin 80))) 60 120
  let width ← clamp ((← get p "width").or (JSVal.num (JSNum.fin 80))) 50 150
  let given ← get p "moving"
  let moving ←
    match given with
    | JSVal.undefined => do
      let r ← JS.random rnd
      pure (JSVal.bool (decide (r > 1 / 2)))
    | m => pure m
  let speed ← clamp ((← get p "speed").or (JSVal.num (JSNum.fin 1))) (1 / 2) 2
  pure { x := x, heightAboveGround := height, width := width, moving := moving, speed := speed }

/-- The method `normalizePlatforms(platforms)`. -/
def normalizePlatforms (rnd : Nat → ℚ) (platforms : JSVal) : JS (List Platform) :=
  match platforms with
  | JSVal.arr ps =>
    if ps.length < 2 then generateDefaultPlatforms rnd (JSNum.fin 8)
    else mapFrom (normalizePlatform rnd) 0 (ps.take 15)
  | _ => generateDefaultPlatforms rnd (JSNum.fin 8)

/-- The comparison `v !== false`. -/
def notFalse : JSVal → Bool
  | JSVal.bool false => false
  | _ => true

/-- The method `validateAndNormalize(config)`. -/
def validateAndNormalize (rnd : Nat → ℚ) (config : JSVal) : JS LevelConfig := do
  let name := (← get config "name").or (JSVal.str "AI Generated Level")
  let theme := (← get config "theme").or (JSVal.str "winter")
  let worldWidth ← clamp ((← get config "worldWidth").or (JSVal.num (JSNum.fin 3000))) 2000 5000
  let houses ← normalizeHouses rnd (← get config "houses")
  let platforms ← normalizePlatforms rnd (← get config "platforms")
  let iceCount ← clamp ((← get config "iceCount").or (JSVal.num (JSNum.fin 14))) 5 30
  let iceSpeed ← clamp ((← get config "iceSpeed").or (JSVal.num (JSNum.fin 1))) (1 / 2) 2
  let deliveriesNeeded ←
    clamp ((← get config "deliveriesNeeded").or (JSVal.num (JSNum.fin 6))) 3 12
  let thiefEnabled := notFalse (← get config "thiefEnabled")
  let thiefSpeed ← clamp ((← get config "thiefSpeed").or (JSVal.num (JSNum.fin 1))) (1 / 2) (3 / 2)
  let powerUpChance ←
    clamp ((← get config "powerUpChance").or (JSVal.num (JSNum.fin (3 / 10)))) (1 / 10) (4 / 5)
  let description := (← get config "description").or (JSVal.str "A custom AI-generated level")
  pure { name := name, theme := theme, worldWidth := worldWidth, houses := houses,
         platforms := platforms, iceCount := iceCount, iceSpeed := iceSpeed,
         deliveriesNeeded := JSVal.num deliveriesNeeded,
         thiefEnabled := JSVal.bool thiefEnabled, thiefSpeed := thiefSpeed,
         powerUpChance := powerUpChance, description := description }

/-- The expression `difficulty.charAt(0).toUpperCase() + difficulty.slice(1)`;
the letters `a` to `z` are mapped, the case mapping of other alphabets is not
represented. -/
def capitalized (difficulty : String) : String :=
  match difficulty.toList with
  | [] => ""
  | c :: cs => String.mk (c.toUpper :: cs)

/-- The value `v` as an operand of arithmetic. -/
def operand (v : JSVal) : JS JSNum :=
  JS.ofOption v.toNumber

/-- The method `generateRandom(difficulty)`. -/
def generateRandom (rnd : Nat → ℚ) (difficulty : String) : JS LevelConfig := do
  let template := (← get LEVEL_TEMPLATES difficulty).or (← get LEVEL_TEMPLATES "medium")
  let houses ← generateDefaultHouses rnd (← operand (← get template "houseCount"))
  let platforms ← generateDefaultPlatforms rnd
    ((← operand (← get template "platformDensity")).mul (JSNum.fin 12)).floor
  let iceDensity ← operand (← get template "iceDensity")
  pure { name := JSVal.str ("Random " ++ capitalized difficulty ++ " Level")
         theme := JSVal.str "winter"
         worldWidth := JSNum.fin 3000
         houses := houses
         platforms := platforms
         iceCount := ((JSNum.fin 12).add (iceDensity.mul (JSNum.fin 8))).floor
         iceSpeed := (JSNum.fin (4 / 5)).add (iceDensity.mul (JSNum.fin (2 / 5)))
         deliveriesNeeded := (← get template "deliveriesNeeded")
         thiefEnabled := (← get template "thiefEnabled")
         thiefSpeed := JSNum.fin 1
         powerUpChance := JSNum.fin (3 / 10)
         description := JSVal.str ("A randomly generated " ++ difficulty ++ " level") }

/-! ## Reading the response of the generation service -/

/-- The opening brace. -/
def openBrace : Char := Char.ofNat 123

/-- The closing brace. -/
def closeBrace : Char := Char.ofNat 125

/-- The pattern after its opening brace: any characters, as many as possible,
then a closing brace.  The star first tries to take one more character and
gives it back only when the rest does not match. -/
def matchRest : List Char → Option (List Char)
  | [] => none
  | c :: cs =>
    match matchRest cs with
    | some m => some (c :: m)
    | none => if c = closeBrace then some [c] else none

/-- The pattern at the start of the text: an opening brace, then `matchRest`. -/
def matchAt : List Char → Option (List Char)
  | [] => none
  | c :: cs => if c = openBrace then (matchRest cs).map (fun m => c :: m) else none

/-- The first match of the pattern in the text: the start positions are tried
from left to right. -/
def firstMatch : List Char → Option (List Char)
  | [] => none
  | c :: cs =>
    match matchAt (c :: cs) with
    | some m => some m
    | none => firstMatch cs

/-- The span `jsonMatch[0]` of `parseAIResponse`, when there is a match. -/
def jsonMatch (text : String) : Option String :=
  (firstMatch text.toList).map String.mk

/-- The method `parseAIResponse(aiResponse)`.  `JSON.parse` is the parameter
`jsonParse`, with `none` for its `SyntaxError`; a response that is no string
has no callable `match` and raises inside the `try`. -/
def parseAIResponse (jsonParse : String → Option JSVal) (rnd : Nat → ℚ)
    (aiResponse : JSVal) : JS LevelConfig := do
  let attempt : JS (Option LevelConfig) := JS.tryCatch
    (match aiResponse with
     | JSVal.str text =>
       match jsonMatch text with
       | some span => do
         let config ← JS.ofOption (jsonParse span)
         let level ← validateAndNormalize rnd config
         pure (some level)
       | none => pure none
     | _ => JS.throw)
    (pure none)
  match ← attempt with
  | some level => pure level
  | none => generateRandom rnd "medium"

/-- What the generator does to the outside world. -/
inductive Effect where
  | showLoadingUI
  | hideLoadingUI
  | fetch (prompt : String)
  deriving DecidableEq

/-- What the request to the generation service comes to: the request itself
fails, or a response arrives with its `ok` flag and its decoded body (`none`
when the body does not decode). -/
inductive FetchOutcome where
  | rejected
  | response (ok : Bool) (data : Option JSVal)

/-- The state of a `LevelGenerator`, with the effects it has had so far. -/
structure Generator where
  isGenerating : Bool
  generatedLevel : Option LevelConfig
  effects : List Effect

/-- The body of the `try` of `generateWithAI` after the request: the level it
stores and returns, unless it throws. -/
def requestLevel (jsonParse : String → Option JSVal) (rnd : Nat → ℚ)
    (outcome : FetchOutcome) : JS LevelConfig :=
  match outcome with
  | FetchOutcome.rejected => JS.throw
  | FetchOutcome.response false _ => JS.throw
  | FetchOutcome.response true none => JS.throw
  | FetchOutcome.response true (some data) => do
    let level ← get data "level"
    parseAIResponse jsonParse rnd level

/-- The method `generateWithAI(prompt)`, run to its end against a service that
answers `service prompt`: the value returned (`none` for `null`), the state of
the generator afterwards and the position in the stream of random draws. -/
def generateWithAI (jsonParse : String → Option JSVal) (rnd : Nat → ℚ)
    (service : String → FetchOutcome) (prompt : String) (g : Generator) (k : Nat) :
    Res (Option LevelConfig) × Generator × Nat :=
  if g.isGenerating then (Res.ok none, g, k)
  else
    let g1 : Generator :=
      { g with isGenerating := true
               effects := g.effects ++ [Effect.showLoadingUI, Effect.fetch prompt] }
    match requestLevel jsonParse rnd (service prompt) k with
    | (Res.ok level, k1) =>
      (Res.ok (some level),
       { g1 with generatedLevel := some level
                 effects := g1.effects ++ [Effect.hideLoadingUI]
                 isGenerating := false }, k1)
    | (Res.thrown, k1) =>
      let g2 : Generator :=
        { g1 with effects := g1.effects ++ [Effect.hideLoadingUI], isGenerating := false }
      match generateRandom rnd "medium" k1 with
      | (Res.ok level, k2) => (Res.ok (some level), g2, k2)
      | (Res.thrown, k2) => (Res.thrown, g2, k2)
      | (Res.diverged, k2) => (Res.diverged, g2, k2)
    | (Res.diverged, k1) => (Res.diverged, g1, k1)

/-! ## What the specification says of the span -/

/-- The text up to the closing brace that brings the nesting depth back to
zero, read after an opening brace at depth `depth + 1`. -/
def balancedRest : Nat → List Char → Option (List Char)
  | _, [] => none
  | depth, c :: cs =>
    if c = closeBrace then
      match depth with
      | 0 => some [c]
      | d + 1 => (balancedRest d cs).map (fun m => c :: m)
    else if c = openBrace then (balancedRest (depth + 1) cs).map (fun m => c :: m)
    else (balancedRest depth cs).map (fun m => c :: m)

/-- The span the specification describes: from the first opening brace to the
closing brace that matches it. -/
def firstBalancedSpan : List Char → Option (List Char)
  | [] => none
  | c :: cs =>
    if c = openBrace then (balancedRest 0 cs).map (fun m => c :: m)
    else firstBalancedSpan cs

/-! ## Predicates of the statements -/

/-- The value is absent (`undefined`), `null`, a boolean or a number. -/
def JSVal.numericOrAbsent : JSVal → Bool
  | JSVal.undefined => true
  | JSVal.null => true
  | JSVal.bool _ => true
  | JSVal.num _ => true
  | _ => false

/-- A field was read as `raw`, defaulted to `d` when falsy, converted to the
number `m` and clamped into `out`. -/
def Clamped (raw : Option JSVal) (d lo hi : ℚ) (out : JSNum) : Prop :=
  ∃ v m, raw = some v ∧ (v.or (JSVal.num (JSNum.fin d))).toNumber = some m ∧ out = m.clamp lo hi

/-- What a bounded field holds for a raw value that is absent or a number:
the default `d` when it is absent, zero or `NaN`, and otherwise the raw number
clamped into `[lo, hi]`. -/
def FieldSpec (raw : JSVal) (d lo hi : ℚ) (out : JSNum) : Prop :=
  (raw = JSVal.undefined → out = JSNum.fin d) ∧
  (∀ v : ℚ, raw = JSVal.num (JSNum.fin v) → v ≠ 0 → out = JSNum.fin (min (max v lo) hi)) ∧
  (raw = JSVal.num JSNum.posInf → out = JSNum.fin hi) ∧
  (raw = JSVal.num JSNum.negInf → out = JSNum.fin lo) ∧
  (raw = JSVal.num (JSNum.fin 0) → out = JSNum.fin d) ∧
  (raw = JSVal.num JSNum.nan → out = JSNum.fin d)

/-- Every property of `keys` can be read from `e` and converted to a number
without an exception: `e` is neither `null` nor `undefined` and none of the
properties is, or as an array contains, an object with an own `toString`. -/
def coercible (e : JSVal) (keys : List String) : Bool :=
  keys.all fun key =>
    match e.getProp key with
    | some v => !v.throwsOnCoercion
    | none => false

/-- Normalising the houses raises nothing: the value is no array of three or
more entries, or each of its first twelve entries is `coercible` in `x`. -/
def housesSafe : JSVal → Bool
  | JSVal.arr hs => decide (hs.length < 3) || (hs.take 12).all fun h => coercible h ["x"]
  | _ => true

/-- Normalising the platforms raises nothing: the value is no array of two or
more entries, or each of its first fifteen entries is `coercible` in its
numeric properties. -/
def platformsSafe : JSVal → Bool
  | JSVal.arr ps =>
    decide (ps.length < 2) ||
      (ps.take 15).all fun p => coercible p ["x", "heightAboveGround", "height", "width", "speed"]
  | _ => true

/-- A candidate on which `validateAndNormalize` raises nothing: it is neither
`null` nor `undefined`, its numeric fields convert without an exception, and
so do the entries of its houses and platforms that are read. -/
def candidateSafe (config : JSVal) : Bool :=
  coercible config
      ["worldWidth", "iceCount", "iceSpeed", "deliveriesNeeded", "thiefSpeed", "powerUpChance"] &&
    (match config.getProp "houses" with
     | some hv => housesSafe hv
     | none => false) &&
    (match config.getProp "platforms" with
     | some pv => platformsSafe pv
     | none => false)

/-- The computation never fails to terminate. -/
def Terminates {α : Type} (m : JS α) : Prop :=
  ∀ k, (m k).1 ≠ Res.diverged

/-- The draws of the stream all lie in `[0, 1)`. -/
def UnitDraws (rnd : Nat → ℚ) : Prop :=
  ∀ i, 0 ≤ rnd i ∧ rnd i < 1

/-! ## Computations: basic facts -/

namespace JS

theorem bind_ok_iff {α β : Type} (m : JS α) (f : α → JS β) (k k' : Nat) (b : β) :
    (m >>= f) k = (Res.ok b, k') ↔ ∃ a k1, m k = (Res.ok a, k1) ∧ f a k1 = (Res.ok b, k') := by
  show andThen m f k = _ ↔ _
  unfold andThen
  rcases hm : m k with ⟨r, k1⟩
  cases r with
  | ok a =>
    constructor
    · intro h
      exact ⟨a, k1, rfl, h⟩
    · rintro ⟨a2, k2, h1, h2⟩
      cases h1
      exact h2
  | thrown => simp
  | diverged => simp

theorem pure_ok_iff {α : Type} (a b : α) (k k' : Nat) :
    (pure a : JS α) k = (Res.ok b, k') ↔ a = b ∧ k' = k := by
  show ret a k = _ ↔ _
  simp [ret, eq_comm]

theorem ofOption_ok_iff {α : Type} (o : Option α) (b : α) (k k' : Nat) :
    ofOption o k = (Res.ok b, k') ↔ o = some b ∧ k' = k := by
  cases o <;> simp [ofOption, ret, throw, eq_comm]

theorem random_ok_iff (rnd : Nat → ℚ) (r : ℚ) (k k' : Nat) :
    random rnd k = (Res.ok r, k') ↔ r = rnd k ∧ k' = k + 1 := by
  simp [random, eq_comm]

theorem bind_of_ok {α β : Type} {m : JS α} {f : α → JS β} {k k1 : Nat} {a : α}
    (h : m k = (Res.ok a, k1)) : (m >>= f) k = f a k1 := by
  show andThen m f k = _
  unfold andThen
  rw [h]

theorem bind_of_thrown {α β : Type} {m : JS α} {f : α → JS β} {k k1 : Nat}
    (h : m k = (Res.thrown, k1)) : (m >>= f) k = (Res.thrown, k1) := by
  show andThen m f k = _
  unfold andThen
  rw [h]

end JS

theorem terminates_pure {α : Type} (a : α) : Terminates (pure a : JS α) := by
  intro k h
  cases h

theorem terminates_throw {α : Type} : Terminates (JS.throw : JS α) := by
  intro k h
  cases h

theorem terminates_ofOption {α : Type} (o : Option α) : Terminates (JS.ofOption o) := by
  cases o
  · exact terminates_throw
  · exact terminates_pure _

theorem terminates_random (rnd : Nat → ℚ) : Terminates (JS.random rnd) := by
  intro k h
  cases h

theorem terminates_bind {α β : Type} {m : JS α} {f : α → JS β}
    (hm : Terminates m) (hf : ∀ a, Terminates (f a)) : Terminates (m >>= f) := by
  intro k
  show (JS.andThen m f k).1 ≠ _
  unfold JS.andThen
  have h1 := hm k
  rcases hmk : m k with ⟨r, k1⟩
  rw [hmk] at h1
  cases r with
  | ok a => exact hf a k1
  | thrown => simp
  | diverged => exact absurd rfl h1

theorem terminates_tryCatch {α : Type} {m handler : JS α}
    (hm : Terminates m) (hh : Terminates handler) : Terminates (JS.tryCatch m handler) := by
  intro k
  unfold JS.tryCatch
  have h1 := hm k
  rcases hmk : m k with ⟨r, k1⟩
  rw [hmk] at h1
  cases r with
  | ok a => simp
  | thrown => exact hh k1
  | diverged => exact absurd rfl h1

theorem terminates_forLoop {β : Type} (body : Nat → JS β) (hb : ∀ i, Terminates (body i))
    (n : Nat) : ∀ i, Terminates (forLoop body i n) := by
  induction n with
  | zero =>
    intro i
    exact terminates_pure _
  | succ n ih =>
    intro i
    unfold forLoop
    exact terminates_bind (hb i) fun b =>
      terminates_bind (ih (i + 1)) fun bs => terminates_pure _

theorem terminates_mapFrom {β : Type} (f : JSVal → Nat → JS β) (hf : ∀ v i, Terminates (f v i))
    (vs : List JSVal) : ∀ i, Terminates (mapFrom f i vs) := by
  induction vs with
  | nil =>
    intro i
    exact terminates_pure _
  | cons v vs ih =>
    intro i
    unfold mapFrom
    exact terminates_bind (hf v i) fun b =>
      terminates_bind (ih (i + 1)) fun bs => terminates_pure _

open JSVal

/-! ## Loops -/

theorem mapFrom_ok {β : Type} (f : JSVal → Nat → JS β) :
    ∀ (vs : List JSVal) (i k : Nat) (bs : List β) (k' : Nat),
      mapFrom f i vs k = (Res.ok bs, k') →
      bs.length = vs.length ∧
      ∀ j v, vs[j]? = some v → ∃ b k1 k2, bs[j]? = some b ∧ f v (i + j) k1 = (Res.ok b, k2) := by
  intro vs
  induction vs with
  | nil =>
    intro i k bs k' h
    unfold mapFrom at h
    rw [JS.pure_ok_iff] at h
    rcases h with ⟨rfl, _⟩
    simp
  | cons v vs ih =>
    intro i k bs k' h
    unfold mapFrom at h
    simp only [JS.bind_ok_iff, JS.pure_ok_iff] at h
    rcases h with ⟨b, k1, hb, bs1, k2, hbs, rfl, _⟩
    rcases ih (i + 1) k1 bs1 k2 hbs with ⟨hlen, hidx⟩
    refine ⟨by simp [hlen], ?_⟩
    intro j w hw
    cases j with
    | zero =>
      simp only [List.getElem?_cons_zero, Option.some.injEq] at hw
      subst hw
      exact ⟨b, k, k1, by simp, hb⟩
    | succ j =>
      simp only [List.getElem?_cons_succ] at hw
      rcases hidx j w hw with ⟨b2, k3, k4, h1, h2⟩
      refine ⟨b2, k3, k4, by simpa using h1, ?_⟩
      have e : i + (j + 1) = i + 1 + j := by omega
      rw [e]
      exact h2

theorem mapFrom_returns {β : Type} (f : JSVal → Nat → JS β) :
    ∀ (vs : List JSVal), (∀ v, v ∈ vs → ∀ j k, ∃ b k', f v j k = (Res.ok b, k')) →
      ∀ i k, ∃ bs k', mapFrom f i vs k = (Res.ok bs, k') := by
  intro vs
  induction vs with
  | nil =>
    intro _ i k
    exact ⟨[], k, rfl⟩
  | cons v vs ih =>
    intro hf i k
    rcases hf v (List.mem_cons_self v vs) i k with ⟨b, k1, hb⟩
    rcases ih (fun w hw => hf w (List.mem_cons_of_mem v hw)) (i + 1) k1 with ⟨bs, k2, hbs⟩
    refine ⟨b :: bs, k2, ?_⟩
    unfold mapFrom
    rw [JS.bind_of_ok hb, JS.bind_of_ok hbs]
    rfl

theorem forLoop_ok {β : Type} (body : Nat → JS β) :
    ∀ (n i k : Nat) (bs : List β) (k' : Nat),
      forLoop body i n k = (Res.ok bs, k') →
      bs.length = n ∧
      ∀ b, b ∈ bs → ∃ j k1 k2, i ≤ j ∧ j < i + n ∧ body j k1 = (Res.ok b, k2) := by
  intro n
  induction n with
  | zero =>
    intro i k bs k' h
    unfold forLoop at h
    rw [JS.pure_ok_iff] at h
    rcases h with ⟨rfl, _⟩
    simp
  | succ n ih =>
    intro i k bs k' h
    unfold forLoop at h
    simp only [JS.bind_ok_iff, JS.pure_ok_iff] at h
    rcases h with ⟨b, k1, hb, bs1, k2, hbs, rfl, _⟩
    rcases ih (i + 1) k1 bs1 k2 hbs with ⟨hlen, hmem⟩
    refine ⟨by simp [hlen], ?_⟩
    intro c hc
    rcases List.mem_cons.mp hc with rfl | hc
    · exact ⟨i, k, k1, le_refl i, by omega, hb⟩
    · rcases hmem c hc with ⟨j, k3, k4, h1, h2, h3⟩
      exact ⟨j, k3, k4, by omega, by omega, h3⟩

theorem forLoop_returns {β : Type} (body : Nat → JS β)
    (hb : ∀ j k, ∃ b k', body j k = (Res.ok b, k')) :
    ∀ n i k, ∃ bs k', forLoop body i n k = (Res.ok bs, k') := by
  intro n
  induction n with
  | zero =>
    intro i k
    exact ⟨[], k, rfl⟩
  | succ n ih =>
    intro i k
    rcases hb i k with ⟨b, k1, h1⟩
    rcases ih (i + 1) k1 with ⟨bs, k2, h2⟩
    refine ⟨b :: bs, k2, ?_⟩
    unfold forLoop
    rw [JS.bind_of_ok h1, JS.bind_of_ok h2]
    rfl

/-! ## Clamping -/

theorem clamp_fin (v lo hi : ℚ) :
    (JSNum.fin v).clamp lo hi = JSNum.fin (min (max v lo) hi) := rfl

theorem clamp_within (n : JSNum) (lo hi : ℚ) (hn : n ≠ JSNum.nan) (h : lo ≤ hi) :
    (n.clamp lo hi).within lo hi := by
  cases n with
  | nan => exact absurd rfl hn
  | negInf =>
    show lo ≤ min lo hi ∧ min lo hi ≤ hi
    exact ⟨le_min (le_refl lo) h, min_le_right lo hi⟩
  | posInf =>
    show lo ≤ hi ∧ hi ≤ hi
    exact ⟨h, le_refl hi⟩
  | fin v =>
    show lo ≤ min (max v lo) hi ∧ min (max v lo) hi ≤ hi
    exact ⟨le_min (le_max_right v lo) h, min_le_right _ hi⟩

theorem toNumber_num (n : JSNum) : (num n).toNumber = some n := rfl

theorem or_default_toNumber (v : JSVal) (d : ℚ) (hv : v.numericOrAbsent = true) :
    ∃ m, (v.or (num (JSNum.fin d))).toNumber = some m ∧ m ≠ JSNum.nan := by
  cases v with
  | undefined => exact ⟨JSNum.fin d, rfl, by simp⟩
  | null => exact ⟨JSNum.fin d, rfl, by simp⟩
  | bool b =>
    cases b
    · exact ⟨JSNum.fin d, rfl, by simp⟩
    · exact ⟨JSNum.fin 1, rfl, by simp⟩
  | num n =>
    cases n with
    | nan => exact ⟨JSNum.fin d, rfl, by simp⟩
    | negInf => exact ⟨JSNum.negInf, rfl, by simp⟩
    | posInf => exact ⟨JSNum.posInf, rfl, by simp⟩
    | fin q =>
      by_cases hq : q = 0
      · refine ⟨JSNum.fin d, ?_, by simp⟩
        simp [JSVal.or, truthy, JSNum.isFalsy, hq, toNumber_num]
      · refine ⟨JSNum.fin q, ?_, by simp⟩
        simp [JSVal.or, truthy, JSNum.isFalsy, hq, toNumber_num]
  | str s => simp [numericOrAbsent] at hv
  | arr xs => simp [numericOrAbsent] at hv
  | obj props => simp [numericOrAbsent] at hv
  | builtin => simp [numericOrAbsent] at hv

theorem Clamped.within {v : JSVal} {d lo hi : ℚ} {out : JSNum}
    (h : Clamped (some v) d lo hi out) (hv : v.numericOrAbsent = true) (hle : lo ≤ hi) :
    out.within lo hi := by
  rcases h with ⟨w, m, hw, hm, rfl⟩
  cases hw
  rcases or_default_toNumber v d hv with ⟨m2, h2, hne⟩
  rw [h2] at hm
  cases hm
  exact clamp_within _ lo hi hne hle

theorem Clamped.fieldSpec {raw : JSVal} {d lo hi : ℚ} {out : JSNum}
    (h : Clamped (some raw) d lo hi out) (h1 : lo ≤ d) (h2 : d ≤ hi) :
    FieldSpec raw d lo hi out := by
  rcases h with ⟨w, m, hw, hm, rfl⟩
  cases hw
  have hd : (JSNum.fin d).clamp lo hi = JSNum.fin d := by
    rw [clamp_fin, max_eq_left h1, min_eq_left h2]
  have hle : lo ≤ hi := le_trans h1 h2
  refine ⟨?_, ?_, ?_, ?_, ?_, ?_⟩
  · rintro rfl
    cases hm
    exact hd
  · rintro v rfl hv
    have : ((num (JSNum.fin v)).or (num (JSNum.fin d))) = num (JSNum.fin v) := by
      simp [JSVal.or, truthy, JSNum.isFalsy, hv]
    rw [this] at hm
    cases hm
    rfl
  · rintro rfl
    cases hm
    rfl
  · rintro rfl
    cases hm
    show JSNum.fin (min lo hi) = JSNum.fin lo
    rw [min_eq_left hle]
  · rintro rfl
    have : ((num (JSNum.fin 0)).or (num (JSNum.fin d))) = num (JSNum.fin d) := by
      simp [JSVal.or, truthy, JSNum.isFalsy]
    rw [this] at hm
    cases hm
    exact hd
  · rintro rfl
    cases hm
    exact hd

theorem clamp_ok_iff (v : JSVal) (lo hi : ℚ) (n : JSNum) (k k' : Nat) :
    clamp v lo hi k = (Res.ok n, k') ↔ ∃ m, v.toNumber = some m ∧ n = m.clamp lo hi ∧ k' = k := by
  unfold clamp
  simp only [JS.bind_ok_iff, JS.ofOption_ok_iff, JS.pure_ok_iff]
  constructor
  · rintro ⟨a, k1, ⟨h1, rfl⟩, h2, rfl⟩
    exact ⟨a, h1, h2.symm, rfl⟩
  · rintro ⟨m, h1, rfl, rfl⟩
    exact ⟨m, _, ⟨h1, rfl⟩, rfl, rfl⟩

/-! ## The callbacks of the normalizers -/

theorem normalizeHouse_inv (h : JSVal) (i k : Nat) (o : House) (k' : Nat)
    (hrun : normalizeHouse h i k = (Res.ok o, k')) :
    Clamped (h.getProp "x") (400 + i * 300) 300 4500 o.x ∧
    (∃ c, h.getProp "color" = some c ∧ o.color = c.or (paletteColor i)) ∧ k' = k := by
  unfold normalizeHouse at hrun
  simp only [JS.bind_ok_iff, get, JS.ofOption_ok_iff, JS.pure_ok_iff, clamp_ok_iff] at hrun
  rcases hrun with ⟨x, _, ⟨hx, rfl⟩, n, _, ⟨m, hm, rfl, rfl⟩, c, _, ⟨hc, rfl⟩, rfl, rfl⟩
  exact ⟨⟨x, m, hx, hm, rfl⟩, ⟨c, hc, rfl⟩, rfl⟩

theorem normalizePlatform_inv (rnd : Nat → ℚ) (p : JSVal) (i k : Nat) (o : Platform) (k' : Nat)
    (hrun : normalizePlatform rnd p i k = (Res.ok o, k')) :
    Clamped (p.getProp "x") 500 200 4500 o.x ∧
    (∃ a b, p.getProp "heightAboveGround" = some a ∧ p.getProp "height" = some b ∧
      Clamped (some (a.or b)) 80 60 120 o.heightAboveGround) ∧
    Clamped (p.getProp "width") 80 50 150 o.width ∧
    Clamped (p.getProp "speed") 1 (1 / 2) 2 o.speed ∧
    (∃ given, p.getProp "moving" = some given ∧
      ((given = undefined ∧ o.moving = JSVal.bool (decide (rnd k > 1 / 2)) ∧ k' = k + 1) ∨
       (given ≠ undefined ∧ o.moving = given ∧ k' = k))) := by
  unfold normalizePlatform at hrun
  simp only [JS.bind_ok_iff, get, JS.ofOption_ok_iff, JS.pure_ok_iff, clamp_ok_iff] at hrun
  rcases hrun with ⟨x, k1, ⟨hx, p1⟩, n, k2, ⟨m, hm, rfl, p2⟩, a, k3, ⟨ha, p3⟩, b, k4, ⟨hb, p4⟩,
    hN, k5, ⟨mh, hmh, rfl, p5⟩, w, k6, ⟨hw, p6⟩, wN, k7, ⟨mw, hmw, rfl, p7⟩,
    given, k8, ⟨hg, p8⟩, hrest⟩
  have key : ∃ s ms, p.getProp "speed" = some s ∧
      (s.or (num (JSNum.fin 1))).toNumber = some ms ∧ o.speed = ms.clamp (1 / 2) 2 ∧
      o.x = m.clamp 200 4500 ∧ o.heightAboveGround = mh.clamp 60 120 ∧
      o.width = mw.clamp 50 150 ∧
      ((given = undefined ∧ o.moving = JSVal.bool (decide (rnd k > 1 / 2)) ∧ k' = k + 1) ∨
       (given ≠ undefined ∧ o.moving = given ∧ k' = k)) := by
    subst p1 p2 p3 p4 p5 p6 p7 p8
    cases given <;>
      simp only [JS.bind_ok_iff, JS.ofOption_ok_iff, JS.pure_ok_iff, clamp_ok_iff,
        JS.random_ok_iff] at hrest
    case undefined =>
      rcases hrest with ⟨r, _, ⟨rfl, rfl⟩, y, _, ⟨rfl, rfl⟩, s, _, ⟨hs, rfl⟩, sN, _,
        ⟨ms, hms, rfl, rfl⟩, rfl, rfl⟩
      exact ⟨s, ms, hs, hms, rfl, rfl, rfl, rfl, Or.inl ⟨rfl, rfl, rfl⟩⟩
    all_goals
      rcases hrest with ⟨y, _, ⟨rfl, rfl⟩, s, _, ⟨hs, rfl⟩, sN, _, ⟨ms, hms, rfl, rfl⟩, rfl, rfl⟩
      exact ⟨s, ms, hs, hms, rfl, rfl, rfl, rfl, Or.inr ⟨by simp, rfl, rfl⟩⟩
  rcases key with ⟨s, ms, hs, hms, e1, e2, e3, e4, hmov⟩
  exact ⟨⟨x, m, hx, hm, e2⟩, ⟨a, b, ha, hb, a.or b, mh, rfl, hmh, e3⟩,
    ⟨w, mw, hw, hmw, e4⟩, ⟨s, ms, hs, hms, e1⟩, given, hg, hmov⟩

/-! ## The procedural generators -/

theorem defaultPlatform_run (rnd : Nat → ℚ) (i k : Nat) :
    defaultPlatform rnd i k =
      (Res.ok { x := JSNum.fin (300 + i * 350 + rnd k * 100)
                heightAboveGround := JSNum.fin (60 + rnd (k + 1) * 60)
                width := JSNum.fin (70 + rnd (k + 2) * 50)
                moving := JSVal.bool (decide (rnd (k + 3) > 1 / 2))
                speed := JSNum.fin (4 / 5 + rnd (k + 4) * (4 / 5)) }, k + 5) := rfl

theorem defaultHouse_run (rnd : Nat → ℚ) (spacing : JSNum) (i k : Nat) :
    defaultHouse rnd spacing i k =
      (Res.ok { x := ((JSNum.fin 400).add ((JSNum.fin i).mul spacing)).add
                  (JSNum.fin ((rnd k - 1 / 2) * 100))
                color := paletteColor i }, k + 1) := rfl

theorem loopCount_ne_none (count : JSNum) (h : count ≠ JSNum.posInf) :
    ∃ n, loopCount count = some n := by
  cases count with
  | posInf => exact absurd rfl h
  | nan => exact ⟨0, rfl⟩
  | negInf => exact ⟨0, rfl⟩
  | fin q => exact ⟨⌈q⌉₊, rfl⟩

theorem generateDefaultPlatforms_returns (rnd : Nat → ℚ) (count : JSNum)
    (h : count ≠ JSNum.posInf) (k : Nat) :
    ∃ ps k', generateDefaultPlatforms rnd count k = (Res.ok ps, k') := by
  rcases loopCount_ne_none count h with ⟨n, hn⟩
  unfold generateDefaultPlatforms
  rw [hn]
  exact forLoop_returns _ (fun j k => ⟨_, _, defaultPlatform_run rnd j k⟩) n 0 k

theorem generateDefaultPlatforms_ok (rnd : Nat → ℚ) (count : JSNum) (k : Nat)
    (ps : List Platform) (k' : Nat)
    (h : generateDefaultPlatforms rnd count k = (Res.ok ps, k')) :
    ∃ n, loopCount count = some n ∧ ps.length = n ∧
      ∀ p, p ∈ ps → ∃ j k1, j < n ∧ (Res.ok p, k1 + 5) = defaultPlatform rnd j k1 := by
  unfold generateDefaultPlatforms at h
  cases hc : loopCount count with
  | none =>
    rw [hc] at h
    cases h
  | some n =>
    rw [hc] at h
    rcases forLoop_ok _ n 0 k ps k' h with ⟨hlen, hmem⟩
    refine ⟨n, rfl, hlen, ?_⟩
    intro p hp
    rcases hmem p hp with ⟨j, k1, k2, _, h2, h3⟩
    rw [defaultPlatform_run] at h3
    refine ⟨j, k1, by omega, ?_⟩
    rw [defaultPlatform_run]
    cases h3
    rfl

theorem generateDefaultHouses_returns (rnd : Nat → ℚ) (count : JSNum)
    (h : count ≠ JSNum.posInf) (k : Nat) :
    ∃ hs k', generateDefaultHouses rnd count k = (Res.ok hs, k') := by
  rcases loopCount_ne_none count h with ⟨n, hn⟩
  unfold generateDefaultHouses
  simp only [hn]
  exact forLoop_returns _ (fun j k => ⟨_, _, defaultHouse_run rnd _ j k⟩) n 0 k

theorem generateDefaultHouses_ok (rnd : Nat → ℚ) (count : JSNum) (k : Nat)
    (hs : List House) (k' : Nat)
    (h : generateDefaultHouses rnd count k = (Res.ok hs, k')) :
    ∃ n, loopCount count = some n ∧ hs.length = n ∧
      ∀ o, o ∈ hs → ∃ j k1, j < n ∧
        (Res.ok o, k1 + 1) = defaultHouse rnd ((JSNum.fin 2800).div count) j k1 := by
  unfold generateDefaultHouses at h
  cases hc : loopCount count with
  | none =>
    simp only [hc] at h
    cases h
  | some n =>
    simp only [hc] at h
    rcases forLoop_ok _ n 0 k hs k' h with ⟨hlen, hmem⟩
    refine ⟨n, rfl, hlen, ?_⟩
    intro o ho
    rcases hmem o ho with ⟨j, k1, k2, _, h2, h3⟩
    rw [defaultHouse_run] at h3
    refine ⟨j, k1, by omega, ?_⟩
    rw [defaultHouse_run]
    cases h3
    rfl

theorem loopCount_eight : loopCount (JSNum.fin 8) = some 8 := by
  simp [loopCount]

/-- A default platform is inside every bound of the data model when the draws
are in `[0, 1)` and its index is below eight. -/
theorem defaultPlatform_bounds (rnd : Nat → ℚ) (hr : UnitDraws rnd) (j k1 : Nat) (p : Platform)
    (h : (Res.ok p, k1 + 5) = defaultPlatform rnd j k1) :
    p.heightAboveGround.within 60 120 ∧ p.width.within 50 150 ∧ p.speed.within (1 / 2) 2 ∧
    (j < 9 → p.x.within 200 4500) := by
  rw [defaultPlatform_run] at h
  cases h
  have h0 := hr k1
  have h1 := hr (k1 + 1)
  have h2 := hr (k1 + 2)
  have h4 := hr (k1 + 4)
  refine ⟨?_, ?_, ?_, ?_⟩
  · show (60 : ℚ) ≤ 60 + rnd (k1 + 1) * 60 ∧ 60 + rnd (k1 + 1) * 60 ≤ 120
    constructor <;> linarith [h1.1, h1.2]
  · show (50 : ℚ) ≤ 70 + rnd (k1 + 2) * 50 ∧ 70 + rnd (k1 + 2) * 50 ≤ 150
    constructor <;> linarith [h2.1, h2.2]
  · show (1 / 2 : ℚ) ≤ 4 / 5 + rnd (k1 + 4) * (4 / 5) ∧ 4 / 5 + rnd (k1 + 4) * (4 / 5) ≤ 2
    constructor <;> linarith [h4.1, h4.2]
  · intro hj
    show (200 : ℚ) ≤ 300 + j * 350 + rnd k1 * 100 ∧ 300 + (j : ℚ) * 350 + rnd k1 * 100 ≤ 4500
    have hj1 : (j : ℚ) ≤ 8 := by exact_mod_cast Nat.lt_succ_iff.mp hj
    have hj0 : (0 : ℚ) ≤ j := Nat.cast_nonneg j
    constructor <;> linarith [h0.1, h0.2]

theorem defaultHouse_bounds (rnd : Nat → ℚ) (hr : UnitDraws rnd) (c : ℚ) (j k1 : Nat) (o : House)
    (hj : j < ⌈c⌉₊)
    (h : (Res.ok o, k1 + 1) = defaultHouse rnd ((JSNum.fin 2800).div (JSNum.fin c)) j k1) :
    o.x.within 300 4500 := by
  have hjc : (j : ℚ) < c := Nat.lt_ceil.mp hj
  have hj0 : (0 : ℚ) ≤ j := Nat.cast_nonneg j
  have hc : 0 < c := lt_of_le_of_lt hj0 hjc
  have hc0 : c ≠ 0 := ne_of_gt hc
  have hdiv : (JSNum.fin 2800).div (JSNum.fin c) = JSNum.fin (2800 / c) := by
    simp [JSNum.div, hc0]
  rw [defaultHouse_run, hdiv] at h
  cases h
  show (300 : ℚ) ≤ 400 + j * (2800 / c) + (rnd k1 - 1 / 2) * 100 ∧
    400 + (j : ℚ) * (2800 / c) + (rnd k1 - 1 / 2) * 100 ≤ 4500
  have h0 := hr k1
  have e : (j : ℚ) * (2800 / c) = 2800 * (j / c) := by ring
  have q0 : 0 ≤ (j : ℚ) / c := div_nonneg hj0 (le_of_lt hc)
  have q1 : (j : ℚ) / c ≤ 1 := by
    rw [div_le_one hc]
    exact le_of_lt hjc
  rw [e]
  constructor <;> linarith [h0.1, h0.2]

/-! ## The normalizers -/

theorem normalizeHouses_short (rnd : Nat → ℚ) (hv : JSVal)
    (h : ∀ hs, hv = arr hs → hs.length < 3) :
    normalizeHouses rnd hv = generateDefaultHouses rnd (JSNum.fin 8) := by
  cases hv with
  | arr hs =>
    unfold normalizeHouses
    simp [h hs rfl]
  | _ => rfl

theorem normalizeHouses_array (rnd : Nat → ℚ) (hs : List JSVal) (h : 3 ≤ hs.length) :
    normalizeHouses rnd (arr hs) = mapFrom normalizeHouse 0 (hs.take 12) := by
  unfold normalizeHouses
  simp [Nat.not_lt.mpr h]

theorem normalizePlatforms_short (rnd : Nat → ℚ) (pv : JSVal)
    (h : ∀ ps, pv = arr ps → ps.length < 2) :
    normalizePlatforms rnd pv = generateDefaultPlatforms rnd (JSNum.fin 8) := by
  cases pv with
  | arr ps =>
    unfold normalizePlatforms
    simp [h ps rfl]
  | _ => rfl

theorem normalizePlatforms_array (rnd : Nat → ℚ) (ps : List JSVal) (h : 2 ≤ ps.length) :
    normalizePlatforms rnd (arr ps) = mapFrom (normalizePlatform rnd) 0 (ps.take 15) := by
  unfold normalizePlatforms
  simp [Nat.not_lt.mpr h]

theorem validateAndNormalize_inv (rnd : Nat → ℚ) (config : JSVal) (cfg : LevelConfig)
    (k k' : Nat) (h : validateAndNormalize rnd config k = (Res.ok cfg, k')) :
    Clamped (config.getProp "worldWidth") 3000 2000 5000 cfg.worldWidth ∧
    Clamped (config.getProp "iceCount") 14 5 30 cfg.iceCount ∧
    Clamped (config.getProp "iceSpeed") 1 (1 / 2) 2 cfg.iceSpeed ∧
    (∃ dn, cfg.deliveriesNeeded = num dn ∧
      Clamped (config.getProp "deliveriesNeeded") 6 3 12 dn) ∧
    Clamped (config.getProp "thiefSpeed") 1 (1 / 2) (3 / 2) cfg.thiefSpeed ∧
    Clamped (config.getProp "powerUpChance") (3 / 10) (1 / 10) (4 / 5) cfg.powerUpChance ∧
    (∃ hv pv k1, config.getProp "houses" = some hv ∧ config.getProp "platforms" = some pv ∧
      normalizeHouses rnd hv k = (Res.ok cfg.houses, k1) ∧
      normalizePlatforms rnd pv k1 = (Res.ok cfg.platforms, k')) ∧
    (∃ te, config.getProp "thiefEnabled" = some te ∧ cfg.thiefEnabled = JSVal.bool (notFalse te)) := by
  unfold validateAndNormalize at h
  simp only [JS.bind_ok_iff, get, JS.ofOption_ok_iff, JS.pure_ok_iff, clamp_ok_iff] at h
  rcases h with ⟨nm, _, ⟨hnm, p1⟩, th, _, ⟨hth, p2⟩, ww, _, ⟨hww, p3⟩, wN, _, ⟨mw, hmw, rfl, p4⟩,
    hv, _, ⟨hhv, p5⟩, hs, k1, hhs, pv, _, ⟨hpv, p6⟩, ps, k2, hps,
    ic, _, ⟨hic, p7⟩, icN, _, ⟨mic, hmic, rfl, p8⟩,
    is, _, ⟨his, p9⟩, isN, _, ⟨mis, hmis, rfl, p10⟩,
    dn, _, ⟨hdn, p11⟩, dnN, _, ⟨mdn, hmdn, rfl, p12⟩,
    te, _, ⟨hte, p13⟩, ts, _, ⟨hts, p14⟩, tsN, _, ⟨mts, hmts, rfl, p15⟩,
    pc, _, ⟨hpc, p16⟩, pcN, _, ⟨mpc, hmpc, rfl, p17⟩, ds, _, ⟨hds, p18⟩, rfl, p19⟩
  subst p1 p2 p3 p4 p5 p6 p7 p8 p9 p10 p11 p12 p13 p14 p15 p16 p17 p18 p19
  exact ⟨⟨ww, mw, hww, hmw, rfl⟩, ⟨ic, mic, hic, hmic, rfl⟩, ⟨is, mis, his, hmis, rfl⟩,
    ⟨_, rfl, dn, mdn, hdn, hmdn, rfl⟩, ⟨ts, mts, hts, hmts, rfl⟩, ⟨pc, mpc, hpc, hmpc, rfl⟩,
    ⟨hv, pv, _, hhv, hpv, hhs, hps⟩, ⟨te, hte, rfl⟩⟩

/-! ## When the normalizers return -/

theorem JS.pure_bind {α β : Type} (a : α) (f : α → JS β) : (pure a >>= f) = f a := rfl

theorem getProp_total (e : JSVal) (key1 key2 : String) (v : JSVal)
    (h : e.getProp key1 = some v) : ∃ w, e.getProp key2 = some w := by
  cases e with
  | undefined => cases h
  | null => cases h
  | obj props =>
    show ∃ w, (match props.lookup key2 with
      | some w => some w
      | none => some (inherited key2)) = some w
    cases props.lookup key2 <;> exact ⟨_, rfl⟩
  | _ => exact ⟨_, rfl⟩

theorem coercible_prop (e : JSVal) (keys : List String) (h : coercible e keys = true)
    (key : String) (hk : key ∈ keys) :
    ∃ v, e.getProp key = some v ∧ v.throwsOnCoercion = false := by
  unfold coercible at h
  rw [List.all_eq_true] at h
  have h1 := h key hk
  cases hg : e.getProp key with
  | none => rw [hg] at h1; cases h1
  | some v =>
    rw [hg] at h1
    exact ⟨v, rfl, by simpa using h1⟩

theorem or_throwsOnCoercion (a b : JSVal) (ha : a.throwsOnCoercion = false)
    (hb : b.throwsOnCoercion = false) : (a.or b).throwsOnCoercion = false := by
  unfold JSVal.or
  split <;> assumption

theorem toNumber_of_not_throws (v : JSVal) (h : v.throwsOnCoercion = false) :
    v.toNumber = some v.numericValue := by
  unfold toNumber
  simp [h]

theorem clamp_returns (v : JSVal) (d lo hi : ℚ) (h : v.throwsOnCoercion = false) (k : Nat) :
    ∃ n, clamp (v.or (num (JSNum.fin d))) lo hi k = (Res.ok n, k) := by
  have h1 : (v.or (num (JSNum.fin d))).throwsOnCoercion = false :=
    or_throwsOnCoercion v _ h rfl
  refine ⟨_, (clamp_ok_iff _ lo hi _ k k).mpr ⟨_, toNumber_of_not_throws _ h1, rfl, rfl⟩⟩

theorem get_of_some {e : JSVal} {key : String} {v : JSVal} (h : e.getProp key = some v)
    (k : Nat) : get e key k = (Res.ok v, k) := by
  unfold get
  rw [h]
  rfl

theorem normalizeHouse_returns (h : JSVal) (hc : coercible h ["x"] = true) (i k : Nat) :
    ∃ o k', normalizeHouse h i k = (Res.ok o, k') := by
  rcases coercible_prop h _ hc "x" (by simp) with ⟨x, hx, hxt⟩
  rcases getProp_total h "x" "color" x hx with ⟨c, hcol⟩
  rcases clamp_returns x (400 + i * 300) 300 4500 hxt k with ⟨n, hn⟩
  unfold normalizeHouse
  rw [JS.bind_of_ok (get_of_some hx k), JS.bind_of_ok hn, JS.bind_of_ok (get_of_some hcol k)]
  exact ⟨_, _, rfl⟩

theorem normalizePlatform_returns (rnd : Nat → ℚ) (p : JSVal)
    (hc : coercible p ["x", "heightAboveGround", "height", "width", "speed"] = true)
    (i k : Nat) : ∃ o k', normalizePlatform rnd p i k = (Res.ok o, k') := by
  rcases coercible_prop p _ hc "x" (by simp) with ⟨x, hx, hxt⟩
  rcases coercible_prop p _ hc "heightAboveGround" (by simp) with ⟨a, ha, hat⟩
  rcases coercible_prop p _ hc "height" (by simp) with ⟨b, hb, hbt⟩
  rcases coercible_prop p _ hc "width" (by simp) with ⟨w, hw, hwt⟩
  rcases coercible_prop p _ hc "speed" (by simp) with ⟨s, hs, hst⟩
  rcases getProp_total p "x" "moving" x hx with ⟨g, hg⟩
  rcases clamp_returns x 500 200 4500 hxt k with ⟨n1, hn1⟩
  rcases clamp_returns (a.or b) 80 60 120 (or_throwsOnCoercion a b hat hbt) k with ⟨n2, hn2⟩
  rcases clamp_returns w 80 50 150 hwt k with ⟨n3, hn3⟩
  unfold normalizePlatform
  rw [JS.bind_of_ok (get_of_some hx k), JS.bind_of_ok hn1, JS.bind_of_ok (get_of_some ha k),
    JS.bind_of_ok (get_of_some hb k), JS.bind_of_ok hn2, JS.bind_of_ok (get_of_some hw k),
    JS.bind_of_ok hn3, JS.bind_of_ok (get_of_some hg k)]
  cases g with
  | undefined =>
    rcases clamp_returns s 1 (1 / 2) 2 hst (k + 1) with ⟨n4, hn4⟩
    have hr : JS.random rnd k = (Res.ok (rnd k), k + 1) := rfl
    simp only []
    rw [JS.bind_of_ok hr, JS.pure_bind, JS.bind_of_ok (get_of_some hs (k + 1)),
      JS.bind_of_ok hn4]
    exact ⟨_, _, rfl⟩
  | _ =>
    rcases clamp_returns s 1 (1 / 2) 2 hst k with ⟨n4, hn4⟩
    simp only []
    rw [JS.pure_bind, JS.bind_of_ok (get_of_some hs k), JS.bind_of_ok hn4]
    exact ⟨_, _, rfl⟩

theorem normalizeHouses_returns (rnd : Nat → ℚ) (hv : JSVal) (h : housesSafe hv = true)
    (k : Nat) : ∃ hs k', normalizeHouses rnd hv k = (Res.ok hs, k') := by
  by_cases hshort : ∀ hs, hv = arr hs → hs.length < 3
  · rw [normalizeHouses_short rnd hv hshort]
    exact generateDefaultHouses_returns rnd _ (by simp) k
  · push_neg at hshort
    rcases hshort with ⟨hs, rfl, hlen⟩
    rw [normalizeHouses_array rnd hs hlen]
    have hall : ∀ e, e ∈ hs.take 12 → coercible e ["x"] = true := by
      unfold housesSafe at h
      simp only [Bool.or_eq_true, decide_eq_true_eq, List.all_eq_true] at h
      rcases h with h | h
      · omega
      · exact h
    exact mapFrom_returns _ _ (fun e he j k => normalizeHouse_returns e (hall e he) j k) 0 k

theorem normalizePlatforms_returns (rnd : Nat → ℚ) (pv : JSVal) (h : platformsSafe pv = true)
    (k : Nat) : ∃ ps k', normalizePlatforms rnd pv k = (Res.ok ps, k') := by
  by_cases hshort : ∀ ps, pv = arr ps → ps.length < 2
  · rw [normalizePlatforms_short rnd pv hshort]
    exact generateDefaultPlatforms_returns rnd _ (by simp) k
  · push_neg at hshort
    rcases hshort with ⟨ps, rfl, hlen⟩
    rw [normalizePlatforms_array rnd ps hlen]
    have hall : ∀ e, e ∈ ps.take 15 →
        coercible e ["x", "heightAboveGround", "height", "width", "speed"] = true := by
      unfold platformsSafe at h
      simp only [Bool.or_eq_true, decide_eq_true_eq, List.all_eq_true] at h
      rcases h with h | h
      · omega
      · exact h
    exact mapFrom_returns _ _ (fun e he j k => normalizePlatform_returns rnd e (hall e he) j k) 0 k

theorem validateAndNormalize_returns (rnd : Nat → ℚ) (config : JSVal)
    (h : candidateSafe config = true) (k : Nat) :
    ∃ cfg k', validateAndNormalize rnd config k = (Res.ok cfg, k') := by
  unfold candidateSafe at h
  simp only [Bool.and_eq_true] at h
  rcases h with ⟨⟨hc, hh⟩, hp⟩
  rcases coercible_prop config _ hc "worldWidth" (by simp) with ⟨ww, hww, hwwt⟩
  rcases coercible_prop config _ hc "iceCount" (by simp) with ⟨ic, hic, hict⟩
  rcases coercible_prop config _ hc "iceSpeed" (by simp) with ⟨is, his, hist⟩
  rcases coercible_prop config _ hc "deliveriesNeeded" (by simp) with ⟨dn, hdn, hdnt⟩
  rcases coercible_prop config _ hc "thiefSpeed" (by simp) with ⟨ts, hts, htst⟩
  rcases coercible_prop config _ hc "powerUpChance" (by simp) with ⟨pc, hpc, hpct⟩
  rcases getProp_total config _ "name" ww hww with ⟨nm, hnm⟩
  rcases getProp_total config _ "theme" ww hww with ⟨th, hth⟩
  rcases getProp_total config _ "thiefEnabled" ww hww with ⟨te, hte⟩
  rcases getProp_total config _ "description" ww hww with ⟨ds, hds⟩
  rcases hhv : config.getProp "houses" with _ | hv
  · rw [hhv] at hh; cases hh
  rcases hpv : config.getProp "platforms" with _ | pv
  · rw [hpv] at hp; cases hp
  rw [hhv] at hh
  rw [hpv] at hp
  rcases clamp_returns ww 3000 2000 5000 hwwt k with ⟨n1, hn1⟩
  rcases normalizeHouses_returns rnd hv hh k with ⟨hs, k1, hhs⟩
  rcases normalizePlatforms_returns rnd pv hp k1 with ⟨ps, k2, hps⟩
  rcases clamp_returns ic 14 5 30 hict k2 with ⟨n2, hn2⟩
  rcases clamp_returns is 1 (1 / 2) 2 hist k2 with ⟨n3, hn3⟩
  rcases clamp_returns dn 6 3 12 hdnt k2 with ⟨n4, hn4⟩
  rcases clamp_returns ts 1 (1 / 2) (3 / 2) htst k2 with ⟨n5, hn5⟩
  rcases clamp_returns pc (3 / 10) (1 / 10) (4 / 5) hpct k2 with ⟨n6, hn6⟩
  unfold validateAndNormalize
  rw [JS.bind_of_ok (get_of_some hnm k), JS.bind_of_ok (get_of_some hth k),
    JS.bind_of_ok (get_of_some hww k), JS.bind_of_ok hn1, JS.bind_of_ok (get_of_some hhv k),
    JS.bind_of_ok hhs, JS.bind_of_ok (get_of_some hpv k1), JS.bind_of_ok hps,
    JS.bind_of_ok (get_of_some hic k2), JS.bind_of_ok hn2,
    JS.bind_of_ok (get_of_some his k2), JS.bind_of_ok hn3,
    JS.bind_of_ok (get_of_some hdn k2), JS.bind_of_ok hn4,
    JS.bind_of_ok (get_of_some hte k2),
    JS.bind_of_ok (get_of_some hts k2), JS.bind_of_ok hn5,
    JS.bind_of_ok (get_of_some hpc k2), JS.bind_of_ok hn6,
    JS.bind_of_ok (get_of_some hds k2)]
  exact ⟨_, _, rfl⟩

/-! ## Termination -/

theorem terminates_clamp (v : JSVal) (lo hi : ℚ) : Terminates (clamp v lo hi) :=
  terminates_bind (terminates_ofOption _) fun _ => terminates_pure _

theorem terminates_get (v : JSVal) (key : String) : Terminates (get v key) :=
  terminates_ofOption _

theorem terminates_of_returns {α : Type} (m : JS α) (h : ∀ k, ∃ a k', m k = (Res.ok a, k')) :
    Terminates m := by
  intro k hk
  rcases h k with ⟨a, k', e⟩
  rw [e] at hk
  cases hk

theorem terminates_normalizeHouse (h : JSVal) (i : Nat) : Terminates (normalizeHouse h i) := by
  unfold normalizeHouse
  exact terminates_bind (terminates_get _ _) fun _ =>
    terminates_bind (terminates_clamp _ _ _) fun _ =>
      terminates_bind (terminates_get _ _) fun _ => terminates_pure _

theorem terminates_normalizePlatform (rnd : Nat → ℚ) (p : JSVal) (i : Nat) :
    Terminates (normalizePlatform rnd p i) := by
  unfold normalizePlatform
  refine terminates_bind (terminates_get _ _) fun _ =>
    terminates_bind (terminates_clamp _ _ _) fun _ =>
    terminates_bind (terminates_get _ _) fun _ =>
    terminates_bind (terminates_get _ _) fun _ =>
    terminates_bind (terminates_clamp _ _ _) fun _ =>
    terminates_bind (terminates_get _ _) fun _ =>
    terminates_bind (terminates_clamp _ _ _) fun _ =>
    terminates_bind (terminates_get _ _) fun g => ?_
  cases g with
  | undefined =>
    exact terminates_bind (terminates_random rnd) fun _ =>
      terminates_bind (terminates_pure _) fun _ =>
      terminates_bind (terminates_get _ _) fun _ =>
      terminates_bind (terminates_clamp _ _ _) fun _ => terminates_pure _
  | _ =>
    exact terminates_bind (terminates_pure _) fun _ =>
      terminates_bind (terminates_get _ _) fun _ =>
      terminates_bind (terminates_clamp _ _ _) fun _ => terminates_pure _

theorem terminates_normalizeHouses (rnd : Nat → ℚ) (hv : JSVal) :
    Terminates (normalizeHouses rnd hv) := by
  by_cases hshort : ∀ hs, hv = arr hs → hs.length < 3
  · rw [normalizeHouses_short rnd hv hshort]
    exact terminates_of_returns _ (generateDefaultHouses_returns rnd _ (by simp))
  · push_neg at hshort
    rcases hshort with ⟨hs, rfl, hlen⟩
    rw [normalizeHouses_array rnd hs hlen]
    exact terminates_mapFrom _ terminates_normalizeHouse _ 0

theorem terminates_normalizePlatforms (rnd : Nat → ℚ) (pv : JSVal) :
    Terminates (normalizePlatforms rnd pv) := by
  by_cases hshort : ∀ ps, pv = arr ps → ps.length < 2
  · rw [normalizePlatforms_short rnd pv hshort]
    exact terminates_of_returns _ (generateDefaultPlatforms_returns rnd _ (by simp))
  · push_neg at hshort
    rcases hshort with ⟨ps, rfl, hlen⟩
    rw [normalizePlatforms_array rnd ps hlen]
    exact terminates_mapFrom _ (terminates_normalizePlatform rnd) _ 0

theorem terminates_validateAndNormalize (rnd : Nat → ℚ) (config : JSVal) :
    Terminates (validateAndNormalize rnd config) := by
  unfold validateAndNormalize
  exact terminates_bind (terminates_get _ _) fun _ =>
    terminates_bind (terminates_get _ _) fun _ =>
    terminates_bind (terminates_get _ _) fun _ =>
    terminates_bind (terminates_clamp _ _ _) fun _ =>
    terminates_bind (terminates_get _ _) fun _ =>
    terminates_bind (terminates_normalizeHouses rnd _) fun _ =>
    terminates_bind (terminates_get _ _) fun _ =>
    terminates_bind (terminates_normalizePlatforms rnd _) fun _ =>
    terminates_bind (terminates_get _ _) fun _ =>
    terminates_bind (terminates_clamp _ _ _) fun _ =>
    terminates_bind (terminates_get _ _) fun _ =>
    terminates_bind (terminates_clamp _ _ _) fun _ =>
    terminates_bind (terminates_get _ _) fun _ =>
    terminates_bind (terminates_clamp _ _ _) fun _ =>
    terminates_bind (terminates_get _ _) fun _ =>
    terminates_bind (terminates_get _ _) fun _ =>
    terminates_bind (terminates_clamp _ _ _) fun _ =>
    terminates_bind (terminates_get _ _) fun _ =>
    terminates_bind (terminates_clamp _ _ _) fun _ =>
    terminates_bind (terminates_get _ _) fun _ => terminates_pure _

/-! ## The random level -/

theorem template_houseCount (hc pd id dn : ℚ) (te : Bool) :
    (template hc pd id dn te).getProp "houseCount" = some (num (JSNum.fin hc)) := rfl

theorem template_platformDensity (hc pd id dn : ℚ) (te : Bool) :
    (template hc pd id dn te).getProp "platformDensity" = some (num (JSNum.fin pd)) := rfl

theorem template_iceDensity (hc pd id dn : ℚ) (te : Bool) :
    (template hc pd id dn te).getProp "iceDensity" = some (num (JSNum.fin id)) := rfl

theorem template_deliveriesNeeded (hc pd id dn : ℚ) (te : Bool) :
    (template hc pd id dn te).getProp "deliveriesNeeded" = some (num (JSNum.fin dn)) := rfl

theorem template_thiefEnabled (hc pd id dn : ℚ) (te : Bool) :
    (template hc pd id dn te).getProp "thiefEnabled" = some (JSVal.bool te) := rfl

theorem levelTemplates_medium :
    LEVEL_TEMPLATES.getProp "medium" = some (template 8 (1 / 2) (7 / 10) 6 true) := rfl

/-- The level `generateRandom` builds from the entries of a template. -/
theorem generateRandom_ok_iff (rnd : Nat → ℚ) (difficulty : String) (a : JSVal)
    (hc pd id dn : ℚ) (te : Bool)
    (h1 : LEVEL_TEMPLATES.getProp difficulty = some a)
    (h2 : a.or (template 8 (1 / 2) (7 / 10) 6 true) = template hc pd id dn te)
    (k : Nat) (cfg : LevelConfig) (k' : Nat) :
    generateRandom rnd difficulty k = (Res.ok cfg, k') ↔
      ∃ hs k1 ps, generateDefaultHouses rnd (JSNum.fin hc) k = (Res.ok hs, k1) ∧
        generateDefaultPlatforms rnd (JSNum.fin (⌊pd * 12⌋ : ℤ)) k1 = (Res.ok ps, k') ∧
        cfg = { name := JSVal.str ("Random " ++ capitalized difficulty ++ " Level")
                theme := JSVal.str "winter"
                worldWidth := JSNum.fin 3000
                houses := hs
                platforms := ps
                iceCount := JSNum.fin (⌊12 + id * 8⌋ : ℤ)
                iceSpeed := JSNum.fin (4 / 5 + id * (2 / 5))
                deliveriesNeeded := num (JSNum.fin dn)
                thiefEnabled := JSVal.bool te
                thiefSpeed := JSNum.fin 1
                powerUpChance := JSNum.fin (3 / 10)
                description := JSVal.str ("A randomly generated " ++ difficulty ++ " level") } := by
  unfold generateRandom
  simp only [JS.bind_ok_iff, get, operand, JS.ofOption_ok_iff, JS.pure_ok_iff]
  constructor
  · rintro ⟨a1, _, ⟨e1, p1⟩, m, _, ⟨e2, p2⟩, v1, _, ⟨e3, p3⟩, n1, _, ⟨e4, p4⟩, hs, k1, hhs,
      v2, _, ⟨e5, p5⟩, n2, _, ⟨e6, p6⟩, ps, k2, hps, v3, _, ⟨e7, p7⟩, n3, _, ⟨e8, p8⟩,
      v4, _, ⟨e9, p9⟩, v5, _, ⟨e10, p10⟩, rfl, p11⟩
    subst p1 p2 p3 p4 p5 p6 p7 p8 p9 p10 p11
    rw [h1] at e1
    cases e1
    rw [levelTemplates_medium] at e2
    cases e2
    rw [h2] at e3 e5 e7 e9 e10
    rw [template_houseCount] at e3
    rw [template_platformDensity] at e5
    rw [template_iceDensity] at e7
    rw [template_deliveriesNeeded] at e9
    rw [template_thiefEnabled] at e10
    cases e3; cases e5; cases e7; cases e9; cases e10
    cases e4; cases e6; cases e8
    exact ⟨hs, _, ps, hhs, hps, rfl⟩
  · rintro ⟨hs, k1, ps, hhs, hps, rfl⟩
    have g1 : (a.or (template 8 (1 / 2) (7 / 10) 6 true)).getProp "houseCount" =
        some (num (JSNum.fin hc)) := by rw [h2]; rfl
    have g2 : (a.or (template 8 (1 / 2) (7 / 10) 6 true)).getProp "platformDensity" =
        some (num (JSNum.fin pd)) := by rw [h2]; rfl
    have g3 : (a.or (template 8 (1 / 2) (7 / 10) 6 true)).getProp "iceDensity" =
        some (num (JSNum.fin id)) := by rw [h2]; rfl
    have g4 : (a.or (template 8 (1 / 2) (7 / 10) 6 true)).getProp "deliveriesNeeded" =
        some (num (JSNum.fin dn)) := by rw [h2]; rfl
    have g5 : (a.or (template 8 (1 / 2) (7 / 10) 6 true)).getProp "thiefEnabled" =
        some (JSVal.bool te) := by rw [h2]; rfl
    exact ⟨a, k, ⟨h1, rfl⟩, _, k, ⟨levelTemplates_medium, rfl⟩,
      num (JSNum.fin hc), k, ⟨g1, rfl⟩, JSNum.fin hc, k, ⟨toNumber_num _, rfl⟩, hs, k1, hhs,
      num (JSNum.fin pd), k1, ⟨g2, rfl⟩, JSNum.fin pd, k1, ⟨toNumber_num _, rfl⟩, ps, k', hps,
      num (JSNum.fin id), k', ⟨g3, rfl⟩, JSNum.fin id, k', ⟨toNumber_num _, rfl⟩,
      num (JSNum.fin dn), k', ⟨g4, rfl⟩, JSVal.bool te, k', ⟨g5, rfl⟩, rfl, rfl⟩

theorem generateRandom_returns (rnd : Nat → ℚ) (difficulty : String) (a : JSVal)
    (hc pd id dn : ℚ) (te : Bool)
    (h1 : LEVEL_TEMPLATES.getProp difficulty = some a)
    (h2 : a.or (template 8 (1 / 2) (7 / 10) 6 true) = template hc pd id dn te) (k : Nat) :
    ∃ cfg k', generateRandom rnd difficulty k = (Res.ok cfg, k') := by
  rcases generateDefaultHouses_returns rnd (JSNum.fin hc) (by simp) k with ⟨hs, k1, hhs⟩
  rcases generateDefaultPlatforms_returns rnd (JSNum.fin (⌊pd * 12⌋ : ℤ)) (by simp) k1
    with ⟨ps, k2, hps⟩
  exact ⟨_, k2, (generateRandom_ok_iff rnd difficulty a hc pd id dn te h1 h2 k _ k2).mpr
    ⟨hs, k1, ps, hhs, hps, rfl⟩⟩

theorem generateRandom_medium_returns (rnd : Nat → ℚ) (k : Nat) :
    ∃ cfg k', generateRandom rnd "medium" k = (Res.ok cfg, k') :=
  generateRandom_returns rnd "medium" _ 8 (1 / 2) (7 / 10) 6 true levelTemplates_medium rfl k

/-! ## Reading the response -/

theorem tryCatch_returns {α : Type} (m handler : JS α) (hm : Terminates m)
    (hh : ∀ k, ∃ a k', handler k = (Res.ok a, k')) (k : Nat) :
    ∃ a k', JS.tryCatch m handler k = (Res.ok a, k') := by
  unfold JS.tryCatch
  have h1 := hm k
  rcases hmk : m k with ⟨r, k1⟩
  rw [hmk] at h1
  cases r with
  | ok a => exact ⟨a, k1, rfl⟩
  | thrown => exact hh k1
  | diverged => exact absurd rfl h1

/-- The attempt inside the `try` of `parseAIResponse`. -/
theorem terminates_attempt (jsonParse : String → Option JSVal) (rnd : Nat → ℚ)
    (aiResponse : JSVal) :
    Terminates (match aiResponse with
      | JSVal.str text =>
        match jsonMatch text with
        | some span => do
          let config ← JS.ofOption (jsonParse span)
          let level ← validateAndNormalize rnd config
          pure (some level)
        | none => pure none
      | _ => JS.throw : JS (Option LevelConfig)) := by
  cases aiResponse with
  | str text =>
    simp only []
    cases jsonMatch text with
    | none => exact terminates_pure _
    | some span =>
      exact terminates_bind (terminates_ofOption _) fun _ =>
        terminates_bind (terminates_validateAndNormalize rnd _) fun _ => terminates_pure _
  | _ => exact terminates_throw

theorem parseAIResponse_returns (jsonParse : String → Option JSVal) (rnd : Nat → ℚ)
    (aiResponse : JSVal) (k : Nat) :
    ∃ cfg k', parseAIResponse jsonParse rnd aiResponse k = (Res.ok cfg, k') := by
  unfold parseAIResponse
  rcases tryCatch_returns _ (pure none) (terminates_attempt jsonParse rnd aiResponse)
    (fun k => ⟨none, k, rfl⟩) k with ⟨r, k1, hr⟩
  rw [JS.bind_of_ok hr]
  cases r with
  | none => exact generateRandom_medium_returns rnd k1
  | some level => exact ⟨level, k1, rfl⟩

theorem requestLevel_cases (jsonParse : String → Option JSVal) (rnd : Nat → ℚ)
    (outcome : FetchOutcome) (k : Nat) :
    (∃ level k1, requestLevel jsonParse rnd outcome k = (Res.ok level, k1)) ∨
    (∃ k1, requestLevel jsonParse rnd outcome k = (Res.thrown, k1)) := by
  cases outcome with
  | rejected => exact Or.inr ⟨k, rfl⟩
  | response ok data =>
    cases ok with
    | false => exact Or.inr ⟨k, rfl⟩
    | true =>
      cases data with
      | none => exact Or.inr ⟨k, rfl⟩
      | some d =>
        show (∃ level k1, (get d "level" >>= fun level => parseAIResponse jsonParse rnd level) k
            = (Res.ok level, k1)) ∨
          (∃ k1, (get d "level" >>= fun level => parseAIResponse jsonParse rnd level) k
            = (Res.thrown, k1))
        cases hg : d.getProp "level" with
        | none =>
          right
          refine ⟨k, JS.bind_of_thrown ?_⟩
          unfold get
          rw [hg]
          rfl
        | some v =>
          left
          rw [JS.bind_of_ok (get_of_some hg k)]
          exact parseAIResponse_returns jsonParse rnd v k

/-- C7: a call of `generateWithAI` on a generator whose `isGenerating` flag is
set returns `null` at once and leaves the generator as it was: the flag, the
stored level and the effects (so the generation service is not invoked), and no
random draw is consumed.  A call on a generator whose flag is clear returns a
level, whatever the service answers (success path and failure path), and
leaves the flag clear, having shown the loading screen, invoked the service
once and hidden the loading screen. -/
theorem generateWithAI_reentrancy (jsonParse : String → Option JSVal) (rnd : Nat → ℚ)
    (service : String → FetchOutcome) (prompt : String) (stored : Option LevelConfig)
    (effects : List Effect) (k : Nat) :
    generateWithAI jsonParse rnd service prompt
        { isGenerating := true, generatedLevel := stored, effects := effects } k =
      (Res.ok none, { isGenerating := true, generatedLevel := stored, effects := effects }, k) ∧
    ∃ level g k',
      generateWithAI jsonParse rnd service prompt
          { isGenerating := false, generatedLevel := stored, effects := effects } k =
        (Res.ok (some level), g, k') ∧
      g.isGenerating = false ∧
      g.effects = effects ++ [Effect.showLoadingUI, Effect.fetch prompt, Effect.hideLoadingUI] := by
  refine ⟨rfl, ?_⟩
  unfold generateWithAI
  simp only [Bool.false_eq_true, if_false]
  rcases requestLevel_cases jsonParse rnd (service prompt) k with ⟨level, k1, h⟩ | ⟨k1, h⟩
  · rw [h]
    exact ⟨level, _, k1, rfl, rfl, by simp⟩
  · rw [h]
    rcases generateRandom_medium_returns rnd k1 with ⟨cfg, k2, h2⟩
    simp only [h2]
    exact ⟨cfg, _, k2, rfl, rfl, by simp⟩

/-! ## The span handed to the decoder -/

theorem matchRest_none_iff (cs : List Char) : matchRest cs = none ↔ closeBrace ∉ cs := by
  induction cs with
  | nil => simp [matchRest]
  | cons c cs ih =>
    unfold matchRest
    cases h : matchRest cs with
    | some m =>
      have : ¬ closeBrace ∉ cs := fun hn => by
        rw [ih.mpr hn] at h
        cases h
      simp only [not_not] at this
      simp [this]
    | none =>
      have hn := ih.mp h
      by_cases hc : c = closeBrace
      · simp [hc]
      · have hc2 : ¬ closeBrace = c := fun e => hc e.symm
        simp [hc, hc2, hn]

theorem matchRest_some_iff (cs m : List Char) :
    matchRest cs = some m ↔
      ∃ mid post, cs = mid ++ closeBrace :: post ∧ closeBrace ∉ post ∧
        m = mid ++ [closeBrace] := by
  induction cs generalizing m with
  | nil => simp [matchRest]
  | cons c cs ih =>
    unfold matchRest
    cases h : matchRest cs with
    | some m1 =>
      rcases (ih m1).mp h with ⟨mid, post, rfl, hpost, rfl⟩
      constructor
      · intro e
        simp only [Option.some.injEq] at e
        subst e
        exact ⟨c :: mid, post, rfl, hpost, rfl⟩
      · rintro ⟨mid2, post2, e, hpost2, rfl⟩
        cases mid2 with
        | nil =>
          simp only [List.nil_append, List.cons.injEq] at e
          rcases e with ⟨_, e2⟩
          exfalso
          apply hpost2
          rw [← e2]
          simp
        | cons d mid2 =>
          simp only [List.cons_append, List.cons.injEq] at e
          rcases e with ⟨rfl, e2⟩
          have h3 : matchRest (mid ++ closeBrace :: post) = some (mid2 ++ [closeBrace]) :=
            (ih _).mpr ⟨mid2, post2, e2, hpost2, rfl⟩
          rw [h] at h3
          simp only [Option.some.injEq] at h3
          simp [h3]
    | none =>
      have hn := (matchRest_none_iff cs).mp h
      simp only []
      constructor
      · intro e
        by_cases hc : c = closeBrace
        · simp only [hc, if_true, Option.some.injEq] at e
          subst e
          exact ⟨[], cs, by simp [hc], hn, rfl⟩
        · simp [hc] at e
      · rintro ⟨mid2, post2, e, hpost2, rfl⟩
        cases mid2 with
        | nil =>
          simp only [List.nil_append, List.cons.injEq] at e
          rcases e with ⟨rfl, _⟩
          simp
        | cons d mid2 =>
          simp only [List.cons_append, List.cons.injEq] at e
          rcases e with ⟨_, e2⟩
          exfalso
          apply hn
          rw [e2]
          simp

theorem firstMatch_none_of_no_close (cs : List Char) (h : closeBrace ∉ cs) :
    firstMatch cs = none := by
  induction cs with
  | nil => rfl
  | cons c cs ih =>
    have h1 : closeBrace ∉ cs := fun hm => h (List.mem_cons_of_mem c hm)
    simp only [firstMatch, matchAt]
    rw [(matchRest_none_iff cs).mpr h1, ih h1]
    simp

theorem firstMatch_some_iff (cs m : List Char) :
    firstMatch cs = some m ↔
      ∃ pre mid post, cs = pre ++ openBrace :: (mid ++ closeBrace :: post) ∧
        openBrace ∉ pre ∧ closeBrace ∉ post ∧ m = openBrace :: (mid ++ [closeBrace]) := by
  induction cs with
  | nil => simp [firstMatch]
  | cons c cs ih =>
    simp only [firstMatch, matchAt]
    by_cases hc : c = openBrace
    · subst hc
      simp only [if_true]
      cases h : matchRest cs with
      | some m1 =>
        rcases (matchRest_some_iff cs m1).mp h with ⟨mid, post, rfl, hpost, rfl⟩
        simp only [Option.map_some']
        constructor
        · intro e
          simp only [Option.some.injEq] at e
          subst e
          exact ⟨[], mid, post, rfl, by simp, hpost, rfl⟩
        · rintro ⟨pre, mid2, post2, e, hpre, hpost2, rfl⟩
          cases pre with
          | nil =>
            simp only [List.nil_append, List.cons.injEq, true_and] at e
            have h3 : matchRest (mid ++ closeBrace :: post) = some (mid2 ++ [closeBrace]) :=
              (matchRest_some_iff _ _).mpr ⟨mid2, post2, e, hpost2, rfl⟩
            rw [h] at h3
            simp only [Option.some.injEq] at h3
            simp [h3]
          | cons d pre =>
            simp only [List.cons_append, List.cons.injEq] at e
            exfalso
            apply hpre
            rw [← e.1]
            simp
      | none =>
        have hn := (matchRest_none_iff cs).mp h
        simp only [Option.map_none']
        rw [firstMatch_none_of_no_close cs hn]
        constructor
        · intro e
          cases e
        · rintro ⟨pre, mid2, post2, e, hpre, hpost2, rfl⟩
          exfalso
          cases pre with
          | nil =>
            simp only [List.nil_append, List.cons.injEq, true_and] at e
            apply hn
            rw [e]
            simp
          | cons d pre =>
            simp only [List.cons_append, List.cons.injEq] at e
            apply hn
            rw [e.2]
            simp
    · simp only [hc, if_false]
      rw [ih]
      constructor
      · rintro ⟨pre, mid, post, rfl, hpre, hpost, rfl⟩
        refine ⟨c :: pre, mid, post, rfl, ?_, hpost, rfl⟩
        intro hm
        rcases List.mem_cons.mp hm with e | e
        · exact hc e.symm
        · exact hpre e
      · rintro ⟨pre, mid, post, e, hpre, hpost, rfl⟩
        cases pre with
        | nil =>
          simp only [List.nil_append, List.cons.injEq] at e
          exact absurd e.1 hc
        | cons d pre =>
          simp only [List.cons_append, List.cons.injEq] at e
          exact ⟨pre, mid, post, e.2, fun hm => hpre (List.mem_cons_of_mem d hm), hpost, rfl⟩

/-- C5 (as the code has it): `parseAIResponse` hands the decoder the span from
the first opening brace of the text to its last closing brace, and no span
when no closing brace follows the first opening brace.  The nesting of braces
plays no part. -/
theorem jsonMatch_first_to_last (text span : String) :
    jsonMatch text = some span ↔
      ∃ pre mid post : List Char,
        text.toList = pre ++ openBrace :: (mid ++ closeBrace :: post) ∧
        openBrace ∉ pre ∧ closeBrace ∉ post ∧
        span = String.mk (openBrace :: (mid ++ [closeBrace])) := by
  unfold jsonMatch
  constructor
  · intro h
    cases hm : firstMatch text.toList with
    | none => rw [hm] at h; cases h
    | some m =>
      rw [hm] at h
      simp only [Option.map_some', Option.some.injEq] at h
      rcases (firstMatch_some_iff _ _).mp hm with ⟨pre, mid, post, e, h1, h2, rfl⟩
      exact ⟨pre, mid, post, e, h1, h2, h.symm⟩
  · rintro ⟨pre, mid, post, e, h1, h2, rfl⟩
    rw [(firstMatch_some_iff _ _).mpr ⟨pre, mid, post, e, h1, h2, rfl⟩]
    rfl

/-- C5 fails as stated: in a response with a well-formed object followed by
prose that holds a closing brace, the span selected for decoding runs to the
last brace of the prose, where the balanced span of the specification ends
with the object. -/
theorem jsonMatch_not_balanced :
    jsonMatch "\x7b\"a\":1\x7d ok \x7d" = some "\x7b\"a\":1\x7d ok \x7d" ∧
    (firstBalancedSpan "\x7b\"a\":1\x7d ok \x7d".toList).map String.mk = some "\x7b\"a\":1\x7d" := by
  decide

/-! ## Platform heights -/

/-- The stream of draws that are all zero lies in `[0, 1)`. -/
theorem unitDraws_zero : UnitDraws (fun _ => 0) := by
  intro i
  constructor <;> norm_num

theorem generateDefaultHouses_eight (rnd : Nat → ℚ) (k : Nat) :
    ∃ hs k', generateDefaultHouses rnd (JSNum.fin 8) k = (Res.ok hs, k') ∧ hs.length = 8 := by
  rcases generateDefaultHouses_returns rnd (JSNum.fin 8) (by simp) k with ⟨hs, k', h⟩
  rcases generateDefaultHouses_ok rnd _ k hs k' h with ⟨n, hn, hlen, _⟩
  rw [loopCount_eight] at hn
  cases hn
  exact ⟨hs, k', h, hlen⟩

theorem generateDefaultPlatforms_eight (rnd : Nat → ℚ) (k : Nat) :
    ∃ ps k', generateDefaultPlatforms rnd (JSNum.fin 8) k = (Res.ok ps, k') ∧
      ps.length = 8 := by
  rcases generateDefaultPlatforms_returns rnd (JSNum.fin 8) (by simp) k with ⟨ps, k', h⟩
  rcases generateDefaultPlatforms_ok rnd _ k ps k' h with ⟨n, hn, hlen, _⟩
  rw [loopCount_eight] at hn
  cases hn
  exact ⟨ps, k', h, hlen⟩

theorem mapFrom_take (β : Type) (f : JSVal → Nat → JS β) (vs : List JSVal) (n k : Nat)
    (out : List β) (k' : Nat) (h : mapFrom f 0 (vs.take n) k = (Res.ok out, k')) :
    out.length = min vs.length n ∧
    ∀ i v, i < n → vs[i]? = some v →
      ∃ o k1 k2, out[i]? = some o ∧ f v i k1 = (Res.ok o, k2) := by
  rcases mapFrom_ok f _ 0 k out k' h with ⟨hlen, hidx⟩
  refine ⟨by rw [hlen, List.length_take, Nat.min_comm], ?_⟩
  intro i v hi hv
  have hv2 : (vs.take n)[i]? = some v := by
    rw [List.getElem?_take_of_lt hi]
    exact hv
  rcases hidx i v hv2 with ⟨o, k1, k2, h1, h2⟩
  rw [Nat.zero_add] at h2
  exact ⟨o, k1, k2, h1, h2⟩

/-- C4 (as the code has it): on a value that is no array or has fewer than
three entries `normalizeHouses` returns what `generateDefaultHouses(8)` returns,
eight houses.  On an array of `n ≥ 3` entries it returns whenever the entries
it reads raise nothing (`housesSafe`), and what it returns is `min(n, 12)`
houses, the house at index `i` being built by the callback from entry `i`;
so a returned list has between 3 and 12 houses.  Likewise `normalizePlatforms`,
with two entries as the threshold, eight default platforms, at most fifteen
platforms, and between 2 and 15 platforms in a returned list. -/
theorem normalize_lengths (rnd : Nat → ℚ) :
    (∀ hv k, (∀ hs, hv = arr hs → hs.length < 3) →
      normalizeHouses rnd hv k = generateDefaultHouses rnd (JSNum.fin 8) k ∧
      ∃ out k', normalizeHouses rnd hv k = (Res.ok out, k') ∧ out.length = 8) ∧
    (∀ hs k, 3 ≤ hs.length → housesSafe (arr hs) = true →
      ∃ out k', normalizeHouses rnd (arr hs) k = (Res.ok out, k')) ∧
    (∀ hs k out k', 3 ≤ hs.length → normalizeHouses rnd (arr hs) k = (Res.ok out, k') →
      out.length = min hs.length 12 ∧
      ∀ i h, i < 12 → hs[i]? = some h →
        ∃ o k1 k2, out[i]? = some o ∧ normalizeHouse h i k1 = (Res.ok o, k2)) ∧
    (∀ hv k out k', normalizeHouses rnd hv k = (Res.ok out, k') →
      3 ≤ out.length ∧ out.length ≤ 12) ∧
    (∀ pv k, (∀ ps, pv = arr ps → ps.length < 2) →
      normalizePlatforms rnd pv k = generateDefaultPlatforms rnd (JSNum.fin 8) k ∧
      ∃ out k', normalizePlatforms rnd pv k = (Res.ok out, k') ∧ out.length = 8) ∧
    (∀ ps k, 2 ≤ ps.length → platformsSafe (arr ps) = true →
      ∃ out k', normalizePlatforms rnd (arr ps) k = (Res.ok out, k')) ∧
    (∀ ps k out k', 2 ≤ ps.length → normalizePlatforms rnd (arr ps) k = (Res.ok out, k') →
      out.length = min ps.length 15 ∧
      ∀ i p, i < 15 → ps[i]? = some p →
        ∃ o k1 k2, out[i]? = some o ∧ normalizePlatform rnd p i k1 = (Res.ok o, k2)) ∧
    (∀ pv k out k', normalizePlatforms rnd pv k = (Res.ok out, k') →
      2 ≤ out.length ∧ out.length ≤ 15) := by
  have hA : ∀ hv k, (∀ hs, hv = arr hs → hs.length < 3) →
      normalizeHouses rnd hv k = generateDefaultHouses rnd (JSNum.fin 8) k ∧
      ∃ out k', normalizeHouses rnd hv k = (Res.ok out, k') ∧ out.length = 8 := by
    intro hv k hshort
    rw [normalizeHouses_short rnd hv hshort]
    exact ⟨rfl, generateDefaultHouses_eight rnd k⟩
  have hB : ∀ hs k out k', 3 ≤ hs.length →
      normalizeHouses rnd (arr hs) k = (Res.ok out, k') →
      out.length = min hs.length 12 ∧
      ∀ i h, i < 12 → hs[i]? = some h →
        ∃ o k1 k2, out[i]? = some o ∧ normalizeHouse h i k1 = (Res.ok o, k2) := by
    intro hs k out k' hlen h
    rw [normalizeHouses_array rnd hs hlen] at h
    exact mapFrom_take _ _ hs 12 k out k' h
  have hC : ∀ pv k, (∀ ps, pv = arr ps → ps.length < 2) →
      normalizePlatforms rnd pv k = generateDefaultPlatforms rnd (JSNum.fin 8) k ∧
      ∃ out k', normalizePlatforms rnd pv k = (Res.ok out, k') ∧ out.length = 8 := by
    intro pv k hshort
    rw [normalizePlatforms_short rnd pv hshort]
    exact ⟨rfl, generateDefaultPlatforms_eight rnd k⟩
  have hD : ∀ ps k out k', 2 ≤ ps.length →
      normalizePlatforms rnd (arr ps) k = (Res.ok out, k') →
      out.length = min ps.length 15 ∧
      ∀ i p, i < 15 → ps[i]? = some p →
        ∃ o k1 k2, out[i]? = some o ∧ normalizePlatform rnd p i k1 = (Res.ok o, k2) := by
    intro ps k out k' hlen h
    rw [normalizePlatforms_array rnd ps hlen] at h
    exact mapFrom_take _ _ ps 15 k out k' h
  refine ⟨hA, ?_, hB, ?_, hC, ?_, hD, ?_⟩
  · intro hs k _ hsafe
    exact normalizeHouses_returns rnd (arr hs) hsafe k
  · intro hv k out k' h
    by_cases hshort : ∀ hs, hv = arr hs → hs.length < 3
    · rcases (hA hv k hshort).2 with ⟨out2, k2, h2, hlen⟩
      rw [h] at h2
      cases h2
      omega
    · push_neg at hshort
      rcases hshort with ⟨hs, rfl, hlen⟩
      have := (hB hs k out k' hlen h).1
      omega
  · intro ps k _ hsafe
    exact normalizePlatforms_returns rnd (arr ps) hsafe k
  · intro pv k out k' h
    by_cases hshort : ∀ ps, pv = arr ps → ps.length < 2
    · rcases (hC pv k hshort).2 with ⟨out2, k2, h2, hlen⟩
      rw [h] at h2
      cases h2
      omega
    · push_neg at hshort
      rcases hshort with ⟨ps, rfl, hlen⟩
      have := (hD ps k out k' hlen h).1
      omega

/-- C4, at a concrete input: three house entries give three houses, the first
built from the first entry. -/
theorem normalize_lengths_witness :
    housesSafe (arr [obj [("x", num (JSNum.fin 1))], obj [], str "house"]) = true ∧
    (∃ out k', normalizeHouses (fun _ => 0)
        (arr [obj [("x", num (JSNum.fin 1))], obj [], str "house"]) 0 = (Res.ok out, k') ∧
      out.length = min 3 12 ∧
      ∃ o k1 k2, out[0]? = some o ∧
        normalizeHouse (obj [("x", num (JSNum.fin 1))]) 0 k1 = (Res.ok o, k2)) :=
  ⟨by decide, _, _, rfl,
    ((normalize_lengths (fun _ => 0)).2.2.1
      [obj [("x", num (JSNum.fin 1))], obj [], str "house"] 0 _ _ (by decide) rfl).1,
    ((normalize_lengths (fun _ => 0)).2.2.1
      [obj [("x", num (JSNum.fin 1))], obj [], str "house"] 0 _ _ (by decide) rfl).2
      0 _ (by decide) rfl⟩

/-- C4 fails as stated: on a list of platforms whose entries are `null` the
normalizer raises instead of returning platforms. -/
theorem normalizePlatforms_throws :
    normalizePlatforms (fun _ => 0) (arr [JSVal.null, JSVal.null]) 0 = (Res.thrown, 0) ∧
    normalizeHouses (fun _ => 0)
      (arr [obj [], obj [("x", obj [("toString", str "x")])], obj []]) 0 = (Res.thrown, 0) :=
  ⟨rfl, rfl⟩

/-! ## What a bounded field holds -/

theorem Clamped.fieldSpec_of {raw : Option JSVal} {d lo hi : ℚ} {out : JSNum}
    (h : Clamped raw d lo hi out) (h1 : lo ≤ d) (h2 : d ≤ hi) (v : JSVal)
    (hv : raw = some v) : FieldSpec v d lo hi out := by
  subst hv
  exact h.fieldSpec h1 h2

/-- C10 (as the code has it): every bounded numeric field holds its default
when the raw value is absent, zero or `NaN`, and the raw value clamped into
its bounds when that is a number other than zero and `NaN` (negative numbers
and the infinities included).  The fields are the six scalars of
`validateAndNormalize`, the `x` of a house (default `400 + 300 i` at index
`i`), and the `x`, `width`, `speed` and height of a platform, the raw height
being `heightAboveGround || height`. -/
theorem bounded_fields (rnd : Nat → ℚ) :
    (∀ config k cfg k', validateAndNormalize rnd config k = (Res.ok cfg, k') →
      (∀ raw, config.getProp "worldWidth" = some raw →
        FieldSpec raw 3000 2000 5000 cfg.worldWidth) ∧
      (∀ raw, config.getProp "iceCount" = some raw → FieldSpec raw 14 5 30 cfg.iceCount) ∧
      (∀ raw, config.getProp "iceSpeed" = some raw →
        FieldSpec raw 1 (1 / 2) 2 cfg.iceSpeed) ∧
      (∀ raw, config.getProp "deliveriesNeeded" = some raw →
        ∃ n, cfg.deliveriesNeeded = num n ∧ FieldSpec raw 6 3 12 n) ∧
      (∀ raw, config.getProp "thiefSpeed" = some raw →
        FieldSpec raw 1 (1 / 2) (3 / 2) cfg.thiefSpeed) ∧
      (∀ raw, config.getProp "powerUpChance" = some raw →
        FieldSpec raw (3 / 10) (1 / 10) (4 / 5) cfg.powerUpChance)) ∧
    (∀ hs k out k', 3 ≤ hs.length → normalizeHouses rnd (arr hs) k = (Res.ok out, k') →
      ∀ (i : Nat) (h : JSVal), i < 12 → hs[i]? = some h →
        ∃ o, out[i]? = some o ∧
          ∀ raw, h.getProp "x" = some raw → FieldSpec raw (400 + i * 300) 300 4500 o.x) ∧
    (∀ ps k out k', 2 ≤ ps.length → normalizePlatforms rnd (arr ps) k = (Res.ok out, k') →
      ∀ (i : Nat) (p : JSVal), i < 15 → ps[i]? = some p →
        ∃ o, out[i]? = some o ∧
          (∀ raw, p.getProp "x" = some raw → FieldSpec raw 500 200 4500 o.x) ∧
          (∀ a b, p.getProp "heightAboveGround" = some a → p.getProp "height" = some b →
            FieldSpec (a.or b) 80 60 120 o.heightAboveGround) ∧
          (∀ raw, p.getProp "width" = some raw → FieldSpec raw 80 50 150 o.width) ∧
          (∀ raw, p.getProp "speed" = some raw → FieldSpec raw 1 (1 / 2) 2 o.speed)) := by
  refine ⟨?_, ?_, ?_⟩
  · intro config k cfg k' h
    rcases validateAndNormalize_inv rnd config cfg k k' h with
      ⟨hww, hic, his, ⟨dn, hdn, hdnc⟩, hts, hpc, _, _⟩
    refine ⟨hww.fieldSpec_of (by norm_num) (by norm_num),
      hic.fieldSpec_of (by norm_num) (by norm_num),
      his.fieldSpec_of (by norm_num) (by norm_num),
      fun raw hraw => ⟨dn, hdn, hdnc.fieldSpec_of (by norm_num) (by norm_num) raw hraw⟩,
      hts.fieldSpec_of (by norm_num) (by norm_num),
      hpc.fieldSpec_of (by norm_num) (by norm_num)⟩
  · intro hs k out k' hlen h i e hi he
    rw [normalizeHouses_array rnd hs hlen] at h
    rcases (mapFrom_take _ _ hs 12 k out k' h).2 i e hi he with ⟨o, k1, k2, ho, hrun⟩
    rcases normalizeHouse_inv e i k1 o k2 hrun with ⟨hx, _, _⟩
    refine ⟨o, ho, hx.fieldSpec_of ?_ ?_⟩
    · have : (0 : ℚ) ≤ i := Nat.cast_nonneg i
      linarith
    · have : (i : ℚ) ≤ 11 := by exact_mod_cast Nat.lt_succ_iff.mp hi
      linarith
  · intro ps k out k' hlen h i e hi he
    rw [normalizePlatforms_array rnd ps hlen] at h
    rcases (mapFrom_take _ _ ps 15 k out k' h).2 i e hi he with ⟨o, k1, k2, ho, hrun⟩
    rcases normalizePlatform_inv rnd e i k1 o k2 hrun with
      ⟨hx, ⟨a, b, ha, hb, hh⟩, hw, hsp, _⟩
    refine ⟨o, ho, hx.fieldSpec_of (by norm_num) (by norm_num), ?_,
      hw.fieldSpec_of (by norm_num) (by norm_num),
      hsp.fieldSpec_of (by norm_num) (by norm_num)⟩
    intro a2 b2 ha2 hb2
    rw [ha] at ha2
    rw [hb] at hb2
    cases ha2
    cases hb2
    exact hh.fieldSpec (by norm_num) (by norm_num)

/-- C10, at a concrete input: a negative `worldWidth` comes back as the lower
bound and an absent `iceCount` as its default. -/
theorem bounded_fields_witness :
    ∃ cfg k', validateAndNormalize (fun _ => 0) (obj [("worldWidth", num (JSNum.fin (-5)))]) 0
        = (Res.ok cfg, k') ∧
      cfg.worldWidth = JSNum.fin (min (max (-5) 2000) 5000) ∧ cfg.iceCount = JSNum.fin 14 := by
  rcases validateAndNormalize_returns (fun _ => 0) (obj [("worldWidth", num (JSNum.fin (-5)))])
    (by decide) 0 with ⟨cfg, k', h⟩
  have hb := (bounded_fields (fun _ => 0)).1 _ 0 cfg k' h
  exact ⟨cfg, k', h, (hb.1 _ rfl).2.1 (-5) rfl (by norm_num), (hb.2.1 _ rfl).1 rfl⟩

/-- C10 fails as stated: the raw `worldWidth` 0 is a number, and the result is
the default 3000, not 0 clamped into `[2000, 5000]`, which is 2000. -/
theorem worldWidth_zero_defaults :
    ∃ cfg k', validateAndNormalize (fun _ => 0) (obj [("worldWidth", num (JSNum.fin 0))]) 0
        = (Res.ok cfg, k') ∧
      cfg.worldWidth = JSNum.fin 3000 ∧
      cfg.worldWidth ≠ JSNum.fin (min (max 0 2000) 5000) := by
  refine ⟨_, _, rfl, ?_, ?_⟩
  · show ((num (JSNum.fin 0)).or (num (JSNum.fin 3000))).numericValue.clamp 2000 5000 = _
    simp [JSVal.or, truthy, JSNum.isFalsy, numericValue, JSNum.clamp, JSNum.max, JSNum.min]
    norm_num
  · show ((num (JSNum.fin 0)).or (num (JSNum.fin 3000))).numericValue.clamp 2000 5000 ≠ _
    simp [JSVal.or, truthy, JSNum.isFalsy, numericValue, JSNum.clamp, JSNum.max, JSNum.min]
    norm_num

/-! ## Tiers outside the table -/

theorem levelTemplates_easy :
    LEVEL_TEMPLATES.getProp "easy" = some (template 6 (3 / 10) (1 / 2) 4 false) := rfl

theorem levelTemplates_hard :
    LEVEL_TEMPLATES.getProp "hard" = some (template 10 (7 / 10) 1 8 true) := rfl

theorem template_or (hc pd id dn : ℚ) (te : Bool) (b : JSVal) :
    (template hc pd id dn te).or b = template hc pd id dn te := rfl

/-- The level of a template is valid when the counts and scalars its entries
give are inside the bounds. -/
theorem generateRandom_valid_of_template (rnd : Nat → ℚ) (hr : UnitDraws rnd)
    (tier : String) (hc pd id dn : ℚ) (te : Bool)
    (hT : LEVEL_TEMPLATES.getProp tier = some (template hc pd id dn te))
    (nH nP : Nat) (hnH : ⌈hc⌉₊ = nH) (hnP : ⌈((⌊pd * 12⌋ : ℤ) : ℚ)⌉₊ = nP)
    (hH : 3 ≤ nH ∧ nH ≤ 12) (hP : 2 ≤ nP ∧ nP ≤ 9)
    (hic : (5 : ℚ) ≤ (⌊12 + id * 8⌋ : ℤ) ∧ ((⌊12 + id * 8⌋ : ℤ) : ℚ) ≤ 30)
    (his : (1 / 2 : ℚ) ≤ 4 / 5 + id * (2 / 5) ∧ 4 / 5 + id * (2 / 5) ≤ 2)
    (hdn : 3 ≤ dn ∧ dn ≤ 12) (k : Nat) :
    ∃ cfg k', generateRandom rnd tier k = (Res.ok cfg, k') ∧
      cfg.worldWidth.within 2000 5000 ∧ cfg.iceCount.within 5 30 ∧
      cfg.iceSpeed.within (1 / 2) 2 ∧
      (∃ n, cfg.deliveriesNeeded = num n ∧ n.within 3 12) ∧
      (∃ b, cfg.thiefEnabled = JSVal.bool b) ∧
      cfg.thiefSpeed.within (1 / 2) (3 / 2) ∧ cfg.powerUpChance.within (1 / 10) (4 / 5) ∧
      (3 ≤ cfg.houses.length ∧ cfg.houses.length ≤ 12) ∧
      (2 ≤ cfg.platforms.length ∧ cfg.platforms.length ≤ 15) ∧
      (∀ h, h ∈ cfg.houses → h.x.within 300 4500) ∧
      (∀ p, p ∈ cfg.platforms → p.x.within 200 4500 ∧ p.heightAboveGround.within 60 120 ∧
        p.width.within 50 150 ∧ p.speed.within (1 / 2) 2) := by
  have h2 := template_or hc pd id dn te (template 8 (1 / 2) (7 / 10) 6 true)
  rcases generateRandom_returns rnd tier _ hc pd id dn te hT h2 k with ⟨cfg, k', hrun⟩
  rcases (generateRandom_ok_iff rnd tier _ hc pd id dn te hT h2 k cfg k').mp hrun with
    ⟨hs, k1, ps, hhs, hps, rfl⟩
  rcases generateDefaultHouses_ok rnd _ k hs k1 hhs with ⟨n1, hn1, hlen1, hmem1⟩
  rcases generateDefaultPlatforms_ok rnd _ k1 ps k' hps with ⟨n2, hn2, hlen2, hmem2⟩
  have e1 : n1 = nH := by
    have : loopCount (JSNum.fin hc) = some ⌈hc⌉₊ := rfl
    rw [this, hnH] at hn1
    exact (Option.some.inj hn1).symm
  have e2 : n2 = nP := by
    have : loopCount (JSNum.fin ((⌊pd * 12⌋ : ℤ) : ℚ)) = some ⌈((⌊pd * 12⌋ : ℤ) : ℚ)⌉₊ := rfl
    rw [this, hnP] at hn2
    exact (Option.some.inj hn2).symm
  subst e1 e2
  refine ⟨_, k', hrun, ?_, hic, his, ⟨_, rfl, hdn⟩, ⟨te, rfl⟩, ?_, ?_, ?_, ?_, ?_, ?_⟩
  · show (2000 : ℚ) ≤ 3000 ∧ (3000 : ℚ) ≤ 5000
    constructor <;> norm_num
  · show (1 / 2 : ℚ) ≤ 1 ∧ (1 : ℚ) ≤ 3 / 2
    constructor <;> norm_num
  · show (1 / 10 : ℚ) ≤ 3 / 10 ∧ (3 / 10 : ℚ) ≤ 4 / 5
    constructor <;> norm_num
  · show 3 ≤ hs.length ∧ hs.length ≤ 12
    omega
  · show 2 ≤ ps.length ∧ ps.length ≤ 15
    omega
  · intro h hh
    rcases hmem1 h hh with ⟨j, kk, hj, hrun1⟩
    exact defaultHouse_bounds rnd hr hc j kk h (by rw [hnH]; exact hj) hrun1
  · intro p hp
    rcases hmem2 p hp with ⟨j, kk, hj, hrun2⟩
    rcases defaultPlatform_bounds rnd hr j kk p hrun2 with ⟨b1, b2, b3, b4⟩
    exact ⟨b4 (by omega), b1, b2, b3⟩

/-- C8: for each of the tiers `easy`, `medium` and `hard` and every stream of
draws in `[0, 1)`, `generateRandom` returns a level whose scalar fields are
inside their bounds, with 3 to 12 houses and 2 to 15 platforms, every house
with `x` in `[300, 4500]`, every platform with `x` in `[200, 4500]`, height in
`[60, 120]`, width in `[50, 150]` and speed in `[0.5, 2]`. -/
theorem generateRandom_valid (rnd : Nat → ℚ) (hr : UnitDraws rnd) (tier : String)
    (ht : tier = "easy" ∨ tier = "medium" ∨ tier = "hard") (k : Nat) :
    ∃ cfg k', generateRandom rnd tier k = (Res.ok cfg, k') ∧
      cfg.worldWidth.within 2000 5000 ∧ cfg.iceCount.within 5 30 ∧
      cfg.iceSpeed.within (1 / 2) 2 ∧
      (∃ n, cfg.deliveriesNeeded = num n ∧ n.within 3 12) ∧
      (∃ b, cfg.thiefEnabled = JSVal.bool b) ∧
      cfg.thiefSpeed.within (1 / 2) (3 / 2) ∧ cfg.powerUpChance.within (1 / 10) (4 / 5) ∧
      (3 ≤ cfg.houses.length ∧ cfg.houses.length ≤ 12) ∧
      (2 ≤ cfg.platforms.length ∧ cfg.platforms.length ≤ 15) ∧
      (∀ h, h ∈ cfg.houses → h.x.within 300 4500) ∧
      (∀ p, p ∈ cfg.platforms → p.x.within 200 4500 ∧ p.heightAboveGround.within 60 120 ∧
        p.width.within 50 150 ∧ p.speed.within (1 / 2) 2) := by
  rcases ht with rfl | rfl | rfl
  · refine generateRandom_valid_of_template rnd hr "easy" 6 (3 / 10) (1 / 2) 4 false
      levelTemplates_easy 6 3 ?_ ?_ (by omega) (by omega) ?_ ?_ ?_ k
    · exact_mod_cast Nat.ceil_natCast 6
    · have : ⌊(3 / 10 : ℚ) * 12⌋ = 3 := by norm_num [Int.floor_eq_iff]
      rw [this]
      exact_mod_cast Nat.ceil_natCast 3
    · have : ⌊(12 : ℚ) + 1 / 2 * 8⌋ = 16 := by norm_num [Int.floor_eq_iff]
      rw [this]
      constructor <;> norm_num
    · constructor <;> norm_num
    · constructor <;> norm_num
  · refine generateRandom_valid_of_template rnd hr "medium" 8 (1 / 2) (7 / 10) 6 true
      levelTemplates_medium 8 6 ?_ ?_ (by omega) (by omega) ?_ ?_ ?_ k
    · exact_mod_cast Nat.ceil_natCast 8
    · have : ⌊(1 / 2 : ℚ) * 12⌋ = 6 := by norm_num [Int.floor_eq_iff]
      rw [this]
      exact_mod_cast Nat.ceil_natCast 6
    · have : ⌊(12 : ℚ) + 7 / 10 * 8⌋ = 17 := by norm_num [Int.floor_eq_iff]
      rw [this]
      constructor <;> norm_num
    · constructor <;> norm_num
    · constructor <;> norm_num
  · refine generateRandom_valid_of_template rnd hr "hard" 10 (7 / 10) 1 8 true
      levelTemplates_hard 10 8 ?_ ?_ (by omega) (by omega) ?_ ?_ ?_ k
    · exact_mod_cast Nat.ceil_natCast 10
    · have : ⌊(7 / 10 : ℚ) * 12⌋ = 8 := by norm_num [Int.floor_eq_iff]
      rw [this]
      exact_mod_cast Nat.ceil_natCast 8
    · have : ⌊(12 : ℚ) + 1 * 8⌋ = 20 := by norm_num [Int.floor_eq_iff]
      rw [this]
      constructor <;> norm_num
    · constructor <;> norm_num
    · constructor <;> norm_num

/-- C8, at a concrete input: the tier `hard` on the stream of zero draws. -/
theorem generateRandom_valid_witness :
    UnitDraws (fun _ => 0) ∧
    ∃ cfg k', generateRandom (fun _ => 0) "hard" 0 = (Res.ok cfg, k') ∧
      cfg.worldWidth.within 2000 5000 ∧ cfg.iceCount.within 5 30 ∧
      cfg.iceSpeed.within (1 / 2) 2 ∧
      (∃ n, cfg.deliveriesNeeded = num n ∧ n.within 3 12) ∧
      (∃ b, cfg.thiefEnabled = JSVal.bool b) ∧
      cfg.thiefSpeed.within (1 / 2) (3 / 2) ∧ cfg.powerUpChance.within (1 / 10) (4 / 5) ∧
      (3 ≤ cfg.houses.length ∧ cfg.houses.length ≤ 12) ∧
      (2 ≤ cfg.platforms.length ∧ cfg.platforms.length ≤ 15) ∧
      (∀ h, h ∈ cfg.houses → h.x.within 300 4500) ∧
      (∀ p, p ∈ cfg.platforms → p.x.within 200 4500 ∧ p.heightAboveGround.within 60 120 ∧
        p.width.within 50 150 ∧ p.speed.within (1 / 2) 2) :=
  ⟨unitDraws_zero,
   generateRandom_valid (fun _ => 0) unitDraws_zero "hard" (Or.inr (Or.inr rfl)) 0⟩

/-! ## The level of a template -/

end LevelGen
